import Mathlib

/-!
Shallow embedding of `src/projects/ngx-rxcache/src/lib/models/rxcache-item.ts`.

A `RxCacheItem` cell holds one value inside a `BehaviorSubject` plus six lazily
materialized status subjects.  A `BehaviorSubject` is modelled by `Chan`:
a current value together with a `closed` flag; `next` on a completed subject is
a no-op, and `getValue` keeps returning the last value after completion, which
matches RxJS.  A lazily materialized subject is `Option (Chan _)`.

Caller-supplied functions (construct / persist / saved callback / errorHandler)
are referenced by numeric identifiers; the error-handler identifiers are
resolved through an `Env`, and load/save completions are delivered as explicit
events (`completeLoad`, `failLoad`, `completeSave`, `failSave`) gated exactly
the way RxJS gates them: a load callback fires only while its subscription is
the cell's current one (`unsubscribe` detaches it), and a save callback fires
only while its `takeUntil(finalise)` gate is still open.
-/

set_option autoImplicit false

namespace RxCache

universe u

variable {α : Type}

/-- A BehaviorSubject: current value plus a completed flag. -/
structure Chan (α : Type) where
  val : α
  closed : Bool
deriving DecidableEq, Repr

/-- BehaviorSubject.next: a no-op once the subject has completed. -/
def Chan.next (ch : Chan α) (v : α) : Chan α :=
  if ch.closed then ch else ⟨v, false⟩

/-- BehaviorSubject.complete: keeps the last value, marks the subject closed. -/
def Chan.complete (ch : Chan α) : Chan α :=
  ⟨ch.val, true⟩

/-- The private `next` helper (source line 103): writes only when the subject
was already materialized. -/
def nextOpt (o : Option (Chan α)) (v : α) : Option (Chan α) :=
  match o with
  | some ch => some (ch.next v)
  | none => none

/-- A getter access followed by `next`: get-or-create the subject with its
materialization default, then push the value. -/
def getNext (o : Option (Chan α)) (dflt : α) (v : α) : Option (Chan α) :=
  some ((o.getD ⟨dflt, false⟩).next v)

/-- The private `complete` helper (source line 179): completes only a
materialized subject. -/
def completeOpt (o : Option (Chan α)) : Option (Chan α) :=
  o.map Chan.complete

/-- True when the subject, if materialized, has not completed. -/
def chOpenB (o : Option (Chan α)) : Bool :=
  match o with
  | some ch => !ch.closed
  | none => true

/-- JavaScript string truthiness: `undefined` and the empty string are falsy. -/
def truthyStr : Option String → Bool
  | none => false
  | some s => !(s == "")

/-- JavaScript `a || b` on optional strings. -/
def jsOr (a b : Option String) : Option String :=
  if truthyStr a then a else b

/-- JavaScript `a || b` on optional function references (a present function is
always truthy). -/
def jsOrF (a b : Option Nat) : Option Nat :=
  if a.isSome then a else b

/-- The recognized configuration surface (`rxcache-item-config.ts` interface,
used at source lines 23-45).  Function-typed options are identifiers. -/
structure RxCacheItemConfig (V : Type) where
  id : String
  initialValue : Option V
  genericError : Option String
  construct : Option Nat
  persist : Option Nat
  savedCb : Option Nat
  errorHandler : Option Nat
  load : Bool
deriving DecidableEq

/-- The cell state of `RxCacheItem<T>`.  `instanceBS` is the eagerly created
`instance$`; the six `...BS` options are the lazily materialized subjects;
`savedCb` is the private `saved` callback field; `subscription` pairs a fresh
load identifier with the identifier of the construct that was subscribed;
`activeSaves` holds the saves whose `takeUntil(finalise)` gate is still open. -/
structure RxCacheItem (V : Type) where
  id : String
  instanceBS : Chan (Option V)
  loadedBS : Option (Chan Bool)
  loadingBS : Option (Chan Bool)
  savingBS : Option (Chan Bool)
  savedBS : Option (Chan Bool)
  hasErrorBS : Option (Chan Bool)
  errorBS : Option (Chan (Option String))
  genericError : Option String
  construct : Option Nat
  persist : Option Nat
  savedCb : Option Nat
  errorHandler : Option Nat
  subscription : Option (Nat × Nat)
  nextLoadId : Nat
  activeSaves : List Nat
  nextSaveId : Nat
deriving DecidableEq

/-- Modelled from the spec: the process-wide GlobalErrorPolicy of
`global-config.ts`, which is not under `src/` (spec section 6: an optional
`errorHandler: function(error)->string` plus a `genericError` text), together
with the table resolving cell-level errorHandler identifiers to functions. -/
structure Env (E : Type) where
  cellHandler : Nat → E → Option String
  globalHandler : Option (E → Option String)
  globalGenericError : String

variable {V E : Type}

/-- Source lines 163-168: detach the active load subscription. -/
def unsubscribe (c : RxCacheItem V) : RxCacheItem V :=
  { c with subscription := none }

/-- Source lines 216-218: `errorHandler(error) || genericError ||
globalConfig.genericError` (only called when `errorHandler` is set). -/
def generateErrorMessage (env : Env E) (c : RxCacheItem V) (hid : Nat) (e : E) :
    Option String :=
  jsOr (env.cellHandler hid e) (jsOr c.genericError (some (env.globalGenericError)))

/-- Source line 203: `globalConfig.errorHandler ? globalConfig.errorHandler(error)
: globalConfig.genericError`. -/
def globalConfigErrorOf (env : Env E) (e : E) : Option String :=
  match env.globalHandler with
  | some h => h e
  | none => some (env.globalGenericError)

/-- Source line 204, the argument of `error$.next`: `(this.errorHandler ?
this.generateErrorMessage(error) : this.genericError) || globalConfigError ||
globalConfig.genericError`. -/
def errorMessageOf (env : Env E) (c : RxCacheItem V) (e : E) : Option String :=
  jsOr (match c.errorHandler with
        | some hid => generateErrorMessage env c hid e
        | none => c.genericError)
    (jsOr (globalConfigErrorOf env e) (some (env.globalGenericError)))

/-- Source lines 202-214: render the message through the fallback chain, set
`hasError`, and reset the load flags when a construct is configured and the
save flags when a persist is configured.  All six writes go through getters. -/
def runErrorHandler (env : Env E) (e : E) (c : RxCacheItem V) : RxCacheItem V :=
  let c1 := { c with errorBS := getNext c.errorBS none (errorMessageOf env c e) }
  let c2 := { c1 with hasErrorBS := getNext c1.hasErrorBS false true }
  let c3 :=
    if c2.construct.isSome then
      { c2 with loadedBS := getNext c2.loadedBS c2.instanceBS.val.isSome false,
                loadingBS := getNext c2.loadingBS false false }
    else c2
  if c3.persist.isSome then
    { c3 with savedBS := getNext c3.savedBS false false,
              savingBS := getNext c3.savingBS false false }
  else c3

/-- Source lines 109-115: set the value directly, clear the error state, mark
loaded; the four status writes use the null-guarded private `next`. -/
def update (c : RxCacheItem V) (value : Option V) : RxCacheItem V :=
  { c with instanceBS := c.instanceBS.next value,
           hasErrorBS := nextOpt c.hasErrorBS false,
           errorBS := nextOpt c.errorBS none,
           loadedBS := nextOpt c.loadedBS true,
           loadingBS := nextOpt c.loadingBS false }

/-- Source lines 185-200: with a construct configured, flag the load start
through the getters, detach the previous subscription and record a fresh one
on the configured construct; without a construct this is a no-op. -/
def refresh (c : RxCacheItem V) : RxCacheItem V :=
  match c.construct with
  | some src =>
    { c with loadingBS := getNext c.loadingBS false true,
             loadedBS := getNext c.loadedBS c.instanceBS.val.isSome false,
             hasErrorBS := getNext c.hasErrorBS false false,
             errorBS := getNext c.errorBS none none,
             subscription := some (c.nextLoadId, src),
             nextLoadId := c.nextLoadId + 1 }
  | none => c

/-- Source lines 138-152: like `refresh`, but runs unconditionally on the
passed construct and stores it in the `construct` field (line 144). -/
def reload (c : RxCacheItem V) (src : Nat) : RxCacheItem V :=
  { c with loadedBS := getNext c.loadedBS c.instanceBS.val.isSome false,
           loadingBS := getNext c.loadingBS false true,
           hasErrorBS := getNext c.hasErrorBS false false,
           errorBS := getNext c.errorBS none none,
           construct := some src,
           subscription := some (c.nextLoadId, src),
           nextLoadId := c.nextLoadId + 1 }

/-- Source lines 154-161: clear the four load-side flags through the
null-guarded private `next`, push the new value, detach the active load. -/
def reset (c : RxCacheItem V) (item : Option V) : RxCacheItem V :=
  { c with loadedBS := nextOpt c.loadedBS false,
           loadingBS := nextOpt c.loadingBS false,
           hasErrorBS := nextOpt c.hasErrorBS false,
           errorBS := nextOpt c.errorBS none,
           instanceBS := c.instanceBS.next item,
           subscription := none }

/-- Source lines 170-177: complete `instance$` and the materialized loading,
loaded, error and hasError subjects, then detach the active load.  The saving
and saved subjects are not completed. -/
def finish (c : RxCacheItem V) : RxCacheItem V :=
  { c with instanceBS := c.instanceBS.complete,
           loadingBS := completeOpt c.loadingBS,
           loadedBS := completeOpt c.loadedBS,
           errorBS := completeOpt c.errorBS,
           hasErrorBS := completeOpt c.hasErrorBS,
           subscription := none }

/-- Source lines 117-136: with a persist configured, flag the save start
through the getters and open a fresh save gate; the persist subscription is
tracked by `activeSaves`, not by `subscription`. -/
def save (c : RxCacheItem V) : RxCacheItem V :=
  match c.persist with
  | some _ =>
    { c with savingBS := getNext c.savingBS false true,
             savedBS := getNext c.savedBS false false,
             hasErrorBS := getNext c.hasErrorBS false false,
             errorBS := getNext c.errorBS none none,
             activeSaves := c.nextSaveId :: c.activeSaves,
             nextSaveId := c.nextSaveId + 1 }
  | none => c

/-- Source lines 124-133: the success callback of a save whose gate is still
open; `_saved$` and `_saving$` are written directly (they were materialized at
save start) and the gate is closed. -/
def completeSave (c : RxCacheItem V) (sid : Nat) : RxCacheItem V :=
  if sid ∈ c.activeSaves then
    { c with savedBS := nextOpt c.savedBS true,
             savingBS := nextOpt c.savingBS false,
             activeSaves := c.activeSaves.erase sid }
  else c

/-- Source line 134: the error callback of a save whose gate is still open:
run the error chain and close the gate. -/
def failSave (env : Env E) (c : RxCacheItem V) (sid : Nat) (e : E) : RxCacheItem V :=
  if sid ∈ c.activeSaves then
    { runErrorHandler env e c with activeSaves := c.activeSaves.erase sid }
  else c

/-- Source lines 146-149 and 193-196: the success callback of a load; it fires
only while its subscription is still the cell's current one. -/
def completeLoad (c : RxCacheItem V) (l : Nat) (item : V) : RxCacheItem V :=
  match c.subscription with
  | some sub =>
    if sub.1 = l then
      { c with instanceBS := c.instanceBS.next (some item),
               loadedBS := nextOpt c.loadedBS true,
               loadingBS := nextOpt c.loadingBS false }
    else c
  | none => c

/-- Source lines 150 and 197: the error callback of a load; it fires only
while its subscription is still the cell's current one. -/
def failLoad (env : Env E) (c : RxCacheItem V) (l : Nat) (e : E) : RxCacheItem V :=
  match c.subscription with
  | some sub => if sub.1 = l then runErrorHandler env e c else c
  | none => c

/-- Source lines 24-31: push a supplied initial value only when the cell has
no value, marking the materialized `_loaded$` loaded. -/
def configureInit (c : RxCacheItem V) (cfg : RxCacheItemConfig V) : RxCacheItem V :=
  if cfg.initialValue.isSome && !c.instanceBS.val.isSome then
    { c with instanceBS := c.instanceBS.next cfg.initialValue,
             loadedBS := nextOpt c.loadedBS true }
  else c

/-- Source lines 33-41: merge the supplied options with `||` and detach the
active load when a construct is supplied. -/
def configureMerge (c : RxCacheItem V) (cfg : RxCacheItemConfig V) : RxCacheItem V :=
  let c2 := { c with genericError := jsOr cfg.genericError c.genericError,
                     construct := jsOrF cfg.construct c.construct,
                     persist := jsOrF cfg.persist c.persist,
                     savedCb := jsOrF cfg.savedCb c.savedCb,
                     errorHandler := jsOrF cfg.errorHandler c.errorHandler }
  if cfg.construct.isSome then unsubscribe c2 else c2

/-- Source lines 23-45: the initial-value push, the `||` merge, then a load
when `load` is set. -/
def configure (c : RxCacheItem V) (cfg : RxCacheItemConfig V) : RxCacheItem V :=
  let c3 := configureMerge (configureInit c cfg) cfg
  if cfg.load then refresh c3 else c3

/-- Source lines 8-12: the constructor creates `instance$` eagerly with the
initial value and then applies `configure`. -/
def create (cfg : RxCacheItemConfig V) : RxCacheItem V :=
  configure
    { id := cfg.id, instanceBS := ⟨cfg.initialValue, false⟩,
      loadedBS := none, loadingBS := none, savingBS := none, savedBS := none,
      hasErrorBS := none, errorBS := none, genericError := none,
      construct := none, persist := none, savedCb := none, errorHandler := none,
      subscription := none, nextLoadId := 0, activeSaves := [], nextSaveId := 0 }
    cfg

/-- Source lines 56-61: the `loaded$` getter materializes the subject with
`typeof instance$.getValue() !== 'undefined'` as its default. -/
def readLoaded (c : RxCacheItem V) : RxCacheItem V :=
  { c with loadedBS := some (c.loadedBS.getD ⟨c.instanceBS.val.isSome, false⟩) }

/-- Source lines 63-69: the `loading$` getter materializes with `false`. -/
def readLoading (c : RxCacheItem V) : RxCacheItem V :=
  { c with loadingBS := some (c.loadingBS.getD ⟨false, false⟩) }

/-- Source lines 71-77: the `saving$` getter materializes with `false`. -/
def readSaving (c : RxCacheItem V) : RxCacheItem V :=
  { c with savingBS := some (c.savingBS.getD ⟨false, false⟩) }

/-- Source lines 79-85: the `saved$` getter materializes with `false`. -/
def readSaved (c : RxCacheItem V) : RxCacheItem V :=
  { c with savedBS := some (c.savedBS.getD ⟨false, false⟩) }

/-- Source lines 87-93: the `hasError$` getter materializes with `false`. -/
def readHasError (c : RxCacheItem V) : RxCacheItem V :=
  { c with hasErrorBS := some (c.hasErrorBS.getD ⟨false, false⟩) }

/-- Source lines 95-101: the `error$` getter materializes with `undefined`. -/
def readError (c : RxCacheItem V) : RxCacheItem V :=
  { c with errorBS := some (c.errorBS.getD ⟨none, false⟩) }

/-- Source lines 48-53: the `value$` getter triggers a load when a construct
is configured and `loaded$.getValue()` is false. -/
def readValue (c : RxCacheItem V) : RxCacheItem V :=
  match c.construct with
  | some _ =>
    let c1 := readLoaded c
    if (c1.loadedBS.getD ⟨false, false⟩).val then c1 else refresh c1
  | none => c

/-- The value `getValue()` yields on a possibly unmaterialized subject: the
materialized value, or the default the getter would materialize it with. -/
def chVal (o : Option (Chan α)) (dflt : α) : α :=
  match o with
  | some ch => ch.val
  | none => dflt

/-- The value an observer of `value$` sees. -/
def obsValue (c : RxCacheItem V) : Option V :=
  c.instanceBS.val

/-- The value an observer of `loaded$` sees. -/
def obsLoaded (c : RxCacheItem V) : Bool :=
  chVal c.loadedBS c.instanceBS.val.isSome

/-- The value an observer of `loading$` sees. -/
def obsLoading (c : RxCacheItem V) : Bool :=
  chVal c.loadingBS false

/-- The value an observer of `saving$` sees. -/
def obsSaving (c : RxCacheItem V) : Bool :=
  chVal c.savingBS false

/-- The value an observer of `saved$` sees. -/
def obsSaved (c : RxCacheItem V) : Bool :=
  chVal c.savedBS false

/-- The value an observer of `hasError$` sees. -/
def obsHasError (c : RxCacheItem V) : Bool :=
  chVal c.hasErrorBS false

/-- The value an observer of `error$` sees. -/
def obsError (c : RxCacheItem V) : Option String :=
  chVal c.errorBS none

/-- A cell is live when `instance$` and every materialized status subject are
still open; every cell is live until `finish` is called. -/
def live (c : RxCacheItem V) : Bool :=
  !c.instanceBS.closed && chOpenB c.loadedBS && chOpenB c.loadingBS &&
    chOpenB c.hasErrorBS && chOpenB c.errorBS && chOpenB c.savingBS &&
    chOpenB c.savedBS

/-- One externally observable event: a caller-driven method call, a getter
access, or the asynchronous completion of a load or save. -/
inductive Op (V E : Type) where
  | configure (cfg : RxCacheItemConfig V)
  | update (v : Option V)
  | save
  | reload (src : Nat)
  | reset (v : Option V)
  | refresh
  | finish
  | readValue
  | readLoaded
  | readLoading
  | readSaving
  | readSaved
  | readHasError
  | readError
  | completeLoad (l : Nat) (item : V)
  | failLoad (l : Nat) (e : E)
  | completeSave (sid : Nat)
  | failSave (sid : Nat) (e : E)

/-- The transition function.  Caller-driven operations are only valid before
`finish` (spec lifecycle: after `finish` no further mutation is valid), so the
valid-trace semantics skips them on a finished cell; getter reads, `finish`
itself, and asynchronous completions can always arrive. -/
def step (env : Env E) (c : RxCacheItem V) : Op V E → RxCacheItem V
  | .configure cfg => if c.instanceBS.closed then c else configure c cfg
  | .update v => if c.instanceBS.closed then c else update c v
  | .save => if c.instanceBS.closed then c else save c
  | .reload src => if c.instanceBS.closed then c else reload c src
  | .reset v => if c.instanceBS.closed then c else reset c v
  | .refresh => if c.instanceBS.closed then c else refresh c
  | .readValue => if c.instanceBS.closed then c else readValue c
  | .finish => finish c
  | .readLoaded => readLoaded c
  | .readLoading => readLoading c
  | .readSaving => readSaving c
  | .readSaved => readSaved c
  | .readHasError => readHasError c
  | .readError => readError c
  | .completeLoad l item => completeLoad c l item
  | .failLoad l e => failLoad env c l e
  | .completeSave sid => completeSave c sid
  | .failSave sid e => failSave env c sid e

/-- Run a trace of events. -/
def run (env : Env E) (c : RxCacheItem V) (ops : List (Op V E)) : RxCacheItem V :=
  ops.foldl (step env) c

/-- A cell state reachable from construction by a valid trace. -/
def Reachable (env : Env E) (c : RxCacheItem V) : Prop :=
  ∃ cfg ops, c = run env (create cfg) ops

/-- Modelled from the spec (section 4.1, error chain step 2): the cell's own
message — the errorHandler applied to the raw error, falling back to the
cell's genericError, then to the global generic text; or the cell's
genericError directly when there is no errorHandler. -/
def specCellOwnMessage (env : Env E) (c : RxCacheItem V) (e : E) : Option String :=
  match c.errorHandler with
  | some hid =>
      if truthyStr (env.cellHandler hid e) then env.cellHandler hid e
      else if truthyStr c.genericError then c.genericError
      else some (env.globalGenericError)
  | none => c.genericError

/-- Modelled from the spec (section 4.1, error chain step 1): the global
fallback message — the global handler applied to the error, otherwise the
global generic text. -/
def specGlobalFallback (env : Env E) (e : E) : Option String :=
  match env.globalHandler with
  | some h => h e
  | none => some (env.globalGenericError)

/-- Modelled from the spec (section 4.1, error chain step 3): the final
errorMessage — the cell's own message if non-empty, else the global fallback
if non-empty, else the global generic text. -/
def specFinalMessage (env : Env E) (c : RxCacheItem V) (e : E) : String :=
  if truthyStr (specCellOwnMessage env c e) then
    (specCellOwnMessage env c e).getD (env.globalGenericError)
  else if truthyStr (specGlobalFallback env e) then
    (specGlobalFallback env e).getD (env.globalGenericError)
  else env.globalGenericError

/-- Invariant: a materialized hasError subject holding `true` comes with a
materialized error subject holding a present message. -/
def ErrSync (c : RxCacheItem V) : Prop :=
  ∀ ch, c.hasErrorBS = some ch → ch.val = true →
    ∃ ch2 m, c.errorBS = some ch2 ∧ ch2.val = some m

/-- Invariant: before `finish`, the four load-side subjects are open. -/
def LiveOpen (c : RxCacheItem V) : Prop :=
  c.instanceBS.closed = false →
    chOpenB c.loadedBS = true ∧ chOpenB c.loadingBS = true ∧
      chOpenB c.hasErrorBS = true ∧ chOpenB c.errorBS = true

/-- Invariant: the saving and saved subjects are never completed. -/
def SaveOpen (c : RxCacheItem V) : Prop :=
  chOpenB c.savingBS = true ∧ chOpenB c.savedBS = true

/-- Invariant: an in-flight save implies the hasError and error subjects were
materialized (save start accesses both getters). -/
def SaveMat (c : RxCacheItem V) : Prop :=
  c.activeSaves ≠ [] → c.hasErrorBS.isSome = true ∧ c.errorBS.isSome = true

/-- Invariant: an in-flight save on a finished cell implies `finish` closed
the hasError and error subjects (they were materialized at save start). -/
def SaveClosedSync (c : RxCacheItem V) : Prop :=
  c.activeSaves ≠ [] → c.instanceBS.closed = true →
    chOpenB c.hasErrorBS = false ∧ chOpenB c.errorBS = false

/-- Invariant: a finished cell has no load subscription. -/
def DeadNoSub (c : RxCacheItem V) : Prop :=
  c.instanceBS.closed = true → c.subscription = none

/-- Invariant: the active subscription carries an identifier below the
fresh-identifier counter. -/
def FreshSub (c : RxCacheItem V) : Prop :=
  ∀ l s, c.subscription = some (l, s) → l < c.nextLoadId

/-- The inductive state invariant maintained by every valid trace. -/
def SInv (c : RxCacheItem V) : Prop :=
  ErrSync c ∧ LiveOpen c ∧ SaveOpen c ∧ SaveMat c ∧ SaveClosedSync c ∧
    DeadNoSub c ∧ FreshSub c

/-- Load identifier `a` is stale: below the counter and not the current
subscription.  Once stale, a load identifier stays stale forever. -/
def StaleP (a : Nat) (c : RxCacheItem V) : Prop :=
  a < c.nextLoadId ∧ ∀ s, c.subscription ≠ some (a, s)

/-- A plain configuration: no options supplied. -/
def cfgPlain : RxCacheItemConfig Nat :=
  ⟨"p", none, none, none, none, none, none, false⟩

/-- A configuration supplying only a construct with identifier 1. -/
def cfgC2 : RxCacheItemConfig Nat :=
  ⟨"c2", none, none, some 1, none, none, none, false⟩

/-- A configuration supplying only the genericError text `"old"`. -/
def cfgOldGE : RxCacheItemConfig Nat :=
  ⟨"c9", none, some ("old"), none, none, none, none, false⟩

/-- A configuration supplying the present-but-falsy genericError `""`. -/
def cfgEmptyGE : RxCacheItemConfig Nat :=
  ⟨"c9b", none, some (""), none, none, none, none, false⟩

/-- A configuration supplying construct 1 and an immediate load. -/
def cfgLoad : RxCacheItemConfig Nat :=
  ⟨"w", none, none, some 1, none, none, none, true⟩

/-- A configuration supplying an initial value and a persist sink. -/
def cfgPersist : RxCacheItemConfig Nat :=
  ⟨"s", some 3, none, none, some 4, none, none, false⟩

/-- A concrete environment: no handlers anywhere, global generic text
`"Something went wrong"`. -/
def envW : Env Nat :=
  ⟨fun _ _ => none, none, "Something went wrong"⟩

/-- A freshly created cell with an in-flight load: its subscription is load 0
on construct 1. -/
def cellW : RxCacheItem Nat :=
  create cfgLoad

/-- A freshly created cell with a persist sink and an in-flight save with
gate identifier 0. -/
def cellSave : RxCacheItem Nat :=
  save (create cfgPersist)

/-- A cell with both a construct and a persist sink, with an in-flight save
whose gate identifier is 0. -/
def cellBoth : RxCacheItem Nat :=
  save (configure (create cfgLoad) cfgPersist)

/-- A cell whose in-flight load 0 failed with raw error 7: hasError is set. -/
def cellErr : RxCacheItem Nat :=
  failLoad envW cellW 0 7

theorem Chan.next_complete (ch : Chan α) (v : α) :
    (Chan.complete ch).next v = Chan.complete ch := by
  simp [Chan.next, Chan.complete]

theorem nextOpt_completeOpt (o : Option (Chan α)) (v : α) :
    nextOpt (completeOpt o) v = completeOpt o := by
  cases o <;> simp [nextOpt, completeOpt, Chan.next_complete]

theorem Chan.complete_complete (ch : Chan α) :
    Chan.complete (Chan.complete ch) = Chan.complete ch := by
  simp [Chan.complete]

theorem completeOpt_completeOpt (o : Option (Chan α)) :
    completeOpt (completeOpt o) = completeOpt o := by
  cases o <;> simp [completeOpt, Chan.complete_complete]

theorem chOpenB_completeOpt (o : Option (Chan α)) :
    chOpenB (completeOpt o) = !o.isSome := by
  cases o <;> simp [completeOpt, chOpenB, Chan.complete]

theorem chOpenB_nextOpt (o : Option (Chan α)) (v : α) :
    chOpenB (nextOpt o v) = chOpenB o := by
  rcases o with _ | ⟨x, b⟩
  · rfl
  · cases b <;> simp [nextOpt, chOpenB, Chan.next]

theorem chOpenB_getNext (o : Option (Chan α)) (d v : α) :
    chOpenB (getNext o d v) = chOpenB o := by
  rcases o with _ | ⟨x, b⟩
  · simp [getNext, chOpenB, Chan.next]
  · cases b <;> simp [getNext, chOpenB, Chan.next]

theorem isSome_nextOpt (o : Option (Chan α)) (v : α) :
    (nextOpt o v).isSome = o.isSome := by
  cases o <;> simp [nextOpt]

theorem isSome_getNext (o : Option (Chan α)) (d v : α) :
    (getNext o d v).isSome = true := by
  simp [getNext]

theorem getNext_open (o : Option (Chan α)) (d v : α) (h : chOpenB o = true) :
    getNext o d v = some ⟨v, false⟩ := by
  rcases o with _ | ⟨x, b⟩
  · simp [getNext, Chan.next]
  · simp [chOpenB] at h
    simp [getNext, Chan.next, h]

theorem nextOpt_open_some (o : Option (Chan α)) (ch : Chan α) (v : α)
    (ho : o = some ch) (h : chOpenB o = true) : nextOpt o v = some ⟨v, false⟩ := by
  subst ho
  simp [chOpenB] at h
  simp [nextOpt, Chan.next, h]

theorem nextOpt_open_none (o : Option (Chan α)) (v : α)
    (ho : o = none) : nextOpt o v = none := by
  subst ho
  rfl

theorem chVal_nextOpt_self (o : Option (Chan α)) (v : α) (h : chOpenB o = true) :
    chVal (nextOpt o v) v = v := by
  rcases o with _ | ⟨x, b⟩
  · rfl
  · simp [chOpenB] at h
    simp [nextOpt, Chan.next, chVal, h]

theorem chVal_getNext_open (o : Option (Chan α)) (d0 v d : α)
    (h : chOpenB o = true) : chVal (getNext o d0 v) d = v := by
  rw [getNext_open o d0 v h]
  rfl

theorem chVal_nextOpt_mat (o : Option (Chan α)) (ch : Chan α) (v d : α)
    (ho : o = some ch) (h : chOpenB o = true) : chVal (nextOpt o v) d = v := by
  subst ho
  simp [chOpenB] at h
  simp [nextOpt, Chan.next, chVal, h]

theorem live_iff (c : RxCacheItem V) :
    live c = true ↔
      c.instanceBS.closed = false ∧ chOpenB c.loadedBS = true ∧
        chOpenB c.loadingBS = true ∧ chOpenB c.hasErrorBS = true ∧
        chOpenB c.errorBS = true ∧ chOpenB c.savingBS = true ∧
        chOpenB c.savedBS = true := by
  simp [live, Bool.and_eq_true, Bool.not_eq_true']
  tauto

theorem runErrorHandler_errorBS (env : Env E) (e : E) (c : RxCacheItem V) :
    (runErrorHandler env e c).errorBS
      = getNext c.errorBS none (errorMessageOf env c e) := by
  simp only [runErrorHandler]
  split <;> split <;> rfl

theorem runErrorHandler_hasErrorBS (env : Env E) (e : E) (c : RxCacheItem V) :
    (runErrorHandler env e c).hasErrorBS = getNext c.hasErrorBS false true := by
  simp only [runErrorHandler]
  split <;> split <;> rfl

theorem runErrorHandler_loadedBS (env : Env E) (e : E) (c : RxCacheItem V) :
    (runErrorHandler env e c).loadedBS
      = if c.construct.isSome then
          getNext c.loadedBS c.instanceBS.val.isSome false
        else c.loadedBS := by
  simp only [runErrorHandler]
  split <;> split <;> simp_all

theorem runErrorHandler_loadingBS (env : Env E) (e : E) (c : RxCacheItem V) :
    (runErrorHandler env e c).loadingBS
      = if c.construct.isSome then getNext c.loadingBS false false
        else c.loadingBS := by
  simp only [runErrorHandler]
  split <;> split <;> simp_all

theorem runErrorHandler_savedBS (env : Env E) (e : E) (c : RxCacheItem V) :
    (runErrorHandler env e c).savedBS
      = if c.persist.isSome then getNext c.savedBS false false
        else c.savedBS := by
  simp only [runErrorHandler]
  split <;> split <;> simp_all

theorem runErrorHandler_savingBS (env : Env E) (e : E) (c : RxCacheItem V) :
    (runErrorHandler env e c).savingBS
      = if c.persist.isSome then getNext c.savingBS false false
        else c.savingBS := by
  simp only [runErrorHandler]
  split <;> split <;> simp_all

theorem runErrorHandler_keeps (env : Env E) (e : E) (c : RxCacheItem V) :
    (runErrorHandler env e c).instanceBS = c.instanceBS ∧
    (runErrorHandler env e c).genericError = c.genericError ∧
    (runErrorHandler env e c).construct = c.construct ∧
    (runErrorHandler env e c).persist = c.persist ∧
    (runErrorHandler env e c).savedCb = c.savedCb ∧
    (runErrorHandler env e c).errorHandler = c.errorHandler ∧
    (runErrorHandler env e c).subscription = c.subscription ∧
    (runErrorHandler env e c).nextLoadId = c.nextLoadId ∧
    (runErrorHandler env e c).activeSaves = c.activeSaves ∧
    (runErrorHandler env e c).nextSaveId = c.nextSaveId := by
  simp only [runErrorHandler]
  refine ⟨?_, ?_, ?_, ?_, ?_, ?_, ?_, ?_, ?_, ?_⟩ <;> (split <;> split <;> rfl)

theorem Chan.closed_next (ch : Chan α) (v : α) :
    (ch.next v).closed = ch.closed := by
  by_cases h : ch.closed <;> simp [Chan.next, h]

theorem nextOpt_open_eq (o : Option (Chan α)) (v : α) (h : chOpenB o = true) :
    nextOpt o v = o.map (fun _ => (⟨v, false⟩ : Chan α)) := by
  rcases o with _ | ⟨x, b⟩
  · rfl
  · have hb : b = false := by simpa [chOpenB] using h
    subst hb
    simp [nextOpt, Chan.next]

theorem nextOpt_val_written (o : Option (Chan α)) (v : α) (ch : Chan α)
    (ho : chOpenB o = true) (h : nextOpt o v = some ch) : ch.val = v := by
  rcases o with _ | ⟨x, b⟩
  · exact absurd h (by simp [nextOpt])
  · have hb : b = false := by simpa [chOpenB] using ho
    subst hb
    have hw : nextOpt (some (⟨x, false⟩ : Chan α)) v = some ⟨v, false⟩ := by
      simp [nextOpt, Chan.next]
    rw [hw] at h
    injection h with h2
    rw [← h2]

theorem getNext_val_written (o : Option (Chan α)) (d v : α) (ch : Chan α)
    (ho : chOpenB o = true) (h : getNext o d v = some ch) : ch.val = v := by
  rw [getNext_open o d v ho] at h
  injection h with h2
  rw [← h2]

theorem nextOpt_closed (o : Option (Chan α)) (v : α) (h : chOpenB o = false) :
    nextOpt o v = o := by
  rcases o with _ | ⟨x, b⟩
  · simp [chOpenB] at h
  · have hb : b = true := by simpa [chOpenB] using h
    subst hb
    simp [nextOpt, Chan.next]

theorem getNext_closed (o : Option (Chan α)) (d v : α) (h : chOpenB o = false) :
    getNext o d v = o := by
  rcases o with _ | ⟨x, b⟩
  · simp [chOpenB] at h
  · have hb : b = true := by simpa [chOpenB] using h
    subst hb
    simp [getNext, Chan.next]

theorem chOpenB_read (o : Option (Chan α)) (d : α) :
    chOpenB (some (o.getD ⟨d, false⟩)) = chOpenB o := by
  cases o <;> simp [chOpenB]

theorem erase_ne_nil (l : List Nat) (x : Nat) (h : l.erase x ≠ []) : l ≠ [] := by
  intro he
  subst he
  exact h rfl

theorem jsOr_chain_getD (a b : Option String) (g : String) :
    jsOr a (jsOr b (some g))
      = some (if truthyStr a then a.getD g
              else if truthyStr b then b.getD g else g) := by
  rcases a with _ | s
  · rcases b with _ | t
    · simp [jsOr, truthyStr]
    · by_cases ht : t = "" <;> simp [jsOr, truthyStr, ht]
  · by_cases hs : s = ""
    · rcases b with _ | t
      · simp [jsOr, truthyStr, hs]
      · by_cases ht : t = "" <;> simp [jsOr, truthyStr, hs, ht]
    · simp [jsOr, truthyStr, hs]

theorem errorMessageOf_isSome (env : Env E) (c : RxCacheItem V) (e : E) :
    ∃ m, errorMessageOf env c e = some m := by
  unfold errorMessageOf
  rw [jsOr_chain_getD]
  exact ⟨_, rfl⟩

theorem errSync_of_false (c : RxCacheItem V)
    (h : ∀ ch, c.hasErrorBS = some ch → ch.val = false) : ErrSync c := by
  intro ch hch hval
  rw [h ch hch] at hval
  exact absurd hval (by simp)

theorem false_of_tf (b : Bool) (h1 : b = false) (h2 : b = true) : False := by
  rw [h1] at h2
  exact absurd h2 (by simp)

theorem isSome_completeOpt (o : Option (Chan α)) :
    (completeOpt o).isSome = o.isSome := by
  cases o <;> simp [completeOpt]

theorem sInv_update (c : RxCacheItem V) (v : Option V) (hI : SInv c)
    (hopen : c.instanceBS.closed = false) : SInv (update c v) := by
  obtain ⟨hE, hL, hS, hM, hC, hD, hF⟩ := hI
  obtain ⟨o1, o2, o3, o4⟩ := hL hopen
  have hcl : (update c v).instanceBS.closed = false := by
    have h2 : (update c v).instanceBS.closed = (c.instanceBS.next v).closed := rfl
    rw [h2, Chan.closed_next]
    exact hopen
  refine ⟨?_, ?_, ?_, ?_, ?_, ?_, ?_⟩
  · exact errSync_of_false _
      (fun ch hch => nextOpt_val_written c.hasErrorBS false ch o3 hch)
  · intro _
    exact ⟨(chOpenB_nextOpt _ _).trans o1, (chOpenB_nextOpt _ _).trans o2,
      (chOpenB_nextOpt _ _).trans o3, (chOpenB_nextOpt _ _).trans o4⟩
  · exact ⟨hS.1, hS.2⟩
  · intro hne
    exact ⟨(isSome_nextOpt _ _).trans (hM hne).1,
      (isSome_nextOpt _ _).trans (hM hne).2⟩
  · intro hne hclosed
    exact (false_of_tf _ hcl hclosed).elim
  · intro hclosed
    exact (false_of_tf _ hcl hclosed).elim
  · intro l s hsub
    exact hF l s hsub

theorem sInv_reset (c : RxCacheItem V) (v : Option V) (hI : SInv c)
    (hopen : c.instanceBS.closed = false) : SInv (reset c v) := by
  obtain ⟨hE, hL, hS, hM, hC, hD, hF⟩ := hI
  obtain ⟨o1, o2, o3, o4⟩ := hL hopen
  have hcl : (reset c v).instanceBS.closed = false := by
    have h2 : (reset c v).instanceBS.closed = (c.instanceBS.next v).closed := rfl
    rw [h2, Chan.closed_next]
    exact hopen
  refine ⟨?_, ?_, ?_, ?_, ?_, ?_, ?_⟩
  · exact errSync_of_false _
      (fun ch hch => nextOpt_val_written c.hasErrorBS false ch o3 hch)
  · intro _
    exact ⟨(chOpenB_nextOpt _ _).trans o1, (chOpenB_nextOpt _ _).trans o2,
      (chOpenB_nextOpt _ _).trans o3, (chOpenB_nextOpt _ _).trans o4⟩
  · exact ⟨hS.1, hS.2⟩
  · intro hne
    exact ⟨(isSome_nextOpt _ _).trans (hM hne).1,
      (isSome_nextOpt _ _).trans (hM hne).2⟩
  · intro hne hclosed
    exact (false_of_tf _ hcl hclosed).elim
  · intro hclosed
    exact (false_of_tf _ hcl hclosed).elim
  · intro l s hsub
    exact absurd hsub (by simp [reset])

theorem sInv_save (c : RxCacheItem V) (hI : SInv c)
    (hopen : c.instanceBS.closed = false) : SInv (save c) := by
  obtain ⟨hE, hL, hS, hM, hC, hD, hF⟩ := hI
  obtain ⟨o1, o2, o3, o4⟩ := hL hopen
  rcases hp : c.persist with _ | p
  · simp only [save, hp]
    exact ⟨hE, hL, hS, hM, hC, hD, hF⟩
  · simp only [save, hp]
    refine ⟨?_, ?_, ?_, ?_, ?_, ?_, ?_⟩
    · exact errSync_of_false _
        (fun ch hch => getNext_val_written c.hasErrorBS false false ch o3 hch)
    · intro _
      exact ⟨o1, o2, (chOpenB_getNext _ _ _).trans o3,
        (chOpenB_getNext _ _ _).trans o4⟩
    · exact ⟨(chOpenB_getNext _ _ _).trans hS.1, (chOpenB_getNext _ _ _).trans hS.2⟩
    · intro _
      exact ⟨isSome_getNext _ _ _, isSome_getNext _ _ _⟩
    · intro hne hclosed
      exact (false_of_tf _ hopen hclosed).elim
    · intro hclosed
      exact (false_of_tf _ hopen hclosed).elim
    · intro l s hsub
      exact hF l s hsub

theorem sInv_refresh (c : RxCacheItem V) (hI : SInv c)
    (hopen : c.instanceBS.closed = false) : SInv (refresh c) := by
  obtain ⟨hE, hL, hS, hM, hC, hD, hF⟩ := hI
  obtain ⟨o1, o2, o3, o4⟩ := hL hopen
  rcases hco : c.construct with _ | src
  · simp only [refresh, hco]
    exact ⟨hE, hL, hS, hM, hC, hD, hF⟩
  · simp only [refresh, hco]
    refine ⟨?_, ?_, ?_, ?_, ?_, ?_, ?_⟩
    · exact errSync_of_false _
        (fun ch hch => getNext_val_written c.hasErrorBS false false ch o3 hch)
    · intro _
      exact ⟨(chOpenB_getNext _ _ _).trans o1, (chOpenB_getNext _ _ _).trans o2,
        (chOpenB_getNext _ _ _).trans o3, (chOpenB_getNext _ _ _).trans o4⟩
    · exact ⟨hS.1, hS.2⟩
    · intro _
      exact ⟨isSome_getNext _ _ _, isSome_getNext _ _ _⟩
    · intro hne hclosed
      exact (false_of_tf _ hopen hclosed).elim
    · intro hclosed
      exact (false_of_tf _ hopen hclosed).elim
    · intro l s hsub
      have h2 : some (c.nextLoadId, src) = some (l, s) := hsub
      injection h2 with h3
      have h4 : c.nextLoadId = l := congrArg Prod.fst h3
      show l < c.nextLoadId + 1
      omega

theorem sInv_reload (c : RxCacheItem V) (src : Nat) (hI : SInv c)
    (hopen : c.instanceBS.closed = false) : SInv (reload c src) := by
  obtain ⟨hE, hL, hS, hM, hC, hD, hF⟩ := hI
  obtain ⟨o1, o2, o3, o4⟩ := hL hopen
  refine ⟨?_, ?_, ?_, ?_, ?_, ?_, ?_⟩
  · exact errSync_of_false _
      (fun ch hch => getNext_val_written c.hasErrorBS false false ch o3 hch)
  · intro _
    exact ⟨(chOpenB_getNext _ _ _).trans o1, (chOpenB_getNext _ _ _).trans o2,
      (chOpenB_getNext _ _ _).trans o3, (chOpenB_getNext _ _ _).trans o4⟩
  · exact ⟨hS.1, hS.2⟩
  · intro _
    exact ⟨isSome_getNext _ _ _, isSome_getNext _ _ _⟩
  · intro hne hclosed
    exact (false_of_tf _ hopen hclosed).elim
  · intro hclosed
    exact (false_of_tf _ hopen hclosed).elim
  · intro l s hsub
    have h2 : some (c.nextLoadId, src) = some (l, s) := hsub
    injection h2 with h3
    have h4 : c.nextLoadId = l := congrArg Prod.fst h3
    show l < c.nextLoadId + 1
    omega

theorem sInv_finish (c : RxCacheItem V) (hI : SInv c) : SInv (finish c) := by
  obtain ⟨hE, hL, hS, hM, hC, hD, hF⟩ := hI
  refine ⟨?_, ?_, ?_, ?_, ?_, ?_, ?_⟩
  · intro ch hch hval
    have hch2 : completeOpt c.hasErrorBS = some ch := hch
    rcases hx : c.hasErrorBS with _ | x
    · rw [hx] at hch2
      exact absurd hch2 (by simp [completeOpt])
    · rw [hx] at hch2
      have hch3 : some (Chan.complete x) = some ch := hch2
      injection hch3 with h2
      rw [← h2] at hval
      have hxval : x.val = true := hval
      obtain ⟨ch2, m, hech, hem⟩ := hE x hx hxval
      refine ⟨Chan.complete ch2, m, ?_, ?_⟩
      · show completeOpt c.errorBS = some (Chan.complete ch2)
        rw [hech]
        rfl
      · exact hem
  · intro hcl2
    have h2 : (true : Bool) = false := hcl2
    exact absurd h2 (by simp)
  · exact ⟨hS.1, hS.2⟩
  · intro hne
    have hne2 : c.activeSaves ≠ [] := hne
    exact ⟨(isSome_completeOpt _).trans (hM hne2).1,
      (isSome_completeOpt _).trans (hM hne2).2⟩
  · intro hne hcl2
    have hne2 : c.activeSaves ≠ [] := hne
    obtain ⟨m1, m2⟩ := hM hne2
    constructor
    · show chOpenB (completeOpt c.hasErrorBS) = false
      rw [chOpenB_completeOpt, m1]
      rfl
    · show chOpenB (completeOpt c.errorBS) = false
      rw [chOpenB_completeOpt, m2]
      rfl
  · intro _
    rfl
  · intro l s hsub
    have h2 : (none : Option (Nat × Nat)) = some (l, s) := hsub
    exact absurd h2 (by simp)

theorem sInv_readLoaded (c : RxCacheItem V) (hI : SInv c) : SInv (readLoaded c) := by
  obtain ⟨hE, hL, hS, hM, hC, hD, hF⟩ := hI
  refine ⟨fun ch hch hval => hE ch hch hval, ?_, ⟨hS.1, hS.2⟩,
    fun hne => hM hne, fun hne hcl => hC hne hcl, fun hcl => hD hcl,
    fun l s hsub => hF l s hsub⟩
  intro h2
  obtain ⟨o1, o2, o3, o4⟩ := hL h2
  exact ⟨(chOpenB_read _ _).trans o1, o2, o3, o4⟩

theorem sInv_readLoading (c : RxCacheItem V) (hI : SInv c) : SInv (readLoading c) := by
  obtain ⟨hE, hL, hS, hM, hC, hD, hF⟩ := hI
  refine ⟨fun ch hch hval => hE ch hch hval, ?_, ⟨hS.1, hS.2⟩,
    fun hne => hM hne, fun hne hcl => hC hne hcl, fun hcl => hD hcl,
    fun l s hsub => hF l s hsub⟩
  intro h2
  obtain ⟨o1, o2, o3, o4⟩ := hL h2
  exact ⟨o1, (chOpenB_read _ _).trans o2, o3, o4⟩

theorem sInv_readSaving (c : RxCacheItem V) (hI : SInv c) : SInv (readSaving c) := by
  obtain ⟨hE, hL, hS, hM, hC, hD, hF⟩ := hI
  exact ⟨fun ch hch hval => hE ch hch hval, fun h2 => hL h2,
    ⟨(chOpenB_read _ _).trans hS.1, hS.2⟩, fun hne => hM hne,
    fun hne hcl => hC hne hcl, fun hcl => hD hcl, fun l s hsub => hF l s hsub⟩

theorem sInv_readSaved (c : RxCacheItem V) (hI : SInv c) : SInv (readSaved c) := by
  obtain ⟨hE, hL, hS, hM, hC, hD, hF⟩ := hI
  exact ⟨fun ch hch hval => hE ch hch hval, fun h2 => hL h2,
    ⟨hS.1, (chOpenB_read _ _).trans hS.2⟩, fun hne => hM hne,
    fun hne hcl => hC hne hcl, fun hcl => hD hcl, fun l s hsub => hF l s hsub⟩

theorem sInv_readHasError (c : RxCacheItem V) (hI : SInv c) :
    SInv (readHasError c) := by
  obtain ⟨hE, hL, hS, hM, hC, hD, hF⟩ := hI
  refine ⟨?_, ?_, ⟨hS.1, hS.2⟩, ?_, ?_, fun hcl => hD hcl,
    fun l s hsub => hF l s hsub⟩
  · intro ch hch hval
    have hch2 : some (c.hasErrorBS.getD ⟨false, false⟩) = some ch := hch
    injection hch2 with h2
    rcases hx : c.hasErrorBS with _ | x
    · rw [hx] at h2
      rw [← h2] at hval
      have h3 : (false : Bool) = true := hval
      exact absurd h3 (by simp)
    · rw [hx, Option.getD_some] at h2
      subst h2
      exact hE x hx hval
  · intro h2
    obtain ⟨o1, o2, o3, o4⟩ := hL h2
    exact ⟨o1, o2, (chOpenB_read _ _).trans o3, o4⟩
  · intro hne
    exact ⟨rfl, (hM hne).2⟩
  · intro hne hcl
    obtain ⟨cs1, cs2⟩ := hC hne hcl
    constructor
    · show chOpenB (some (c.hasErrorBS.getD ⟨false, false⟩)) = false
      rw [chOpenB_read]
      exact cs1
    · exact cs2

theorem sInv_readError (c : RxCacheItem V) (hI : SInv c) : SInv (readError c) := by
  obtain ⟨hE, hL, hS, hM, hC, hD, hF⟩ := hI
  refine ⟨?_, ?_, ⟨hS.1, hS.2⟩, ?_, ?_, fun hcl => hD hcl,
    fun l s hsub => hF l s hsub⟩
  · intro ch hch hval
    obtain ⟨ch2, m, hech, hem⟩ := hE ch hch hval
    refine ⟨ch2, m, ?_, hem⟩
    show some (c.errorBS.getD ⟨none, false⟩) = some ch2
    rw [hech, Option.getD_some]
  · intro h2
    obtain ⟨o1, o2, o3, o4⟩ := hL h2
    exact ⟨o1, o2, o3, (chOpenB_read _ _).trans o4⟩
  · intro hne
    exact ⟨(hM hne).1, rfl⟩
  · intro hne hcl
    obtain ⟨cs1, cs2⟩ := hC hne hcl
    constructor
    · exact cs1
    · show chOpenB (some (c.errorBS.getD ⟨none, false⟩)) = false
      rw [chOpenB_read]
      exact cs2

theorem sInv_completeSave (c : RxCacheItem V) (sid : Nat) (hI : SInv c) :
    SInv (completeSave c sid) := by
  obtain ⟨hE, hL, hS, hM, hC, hD, hF⟩ := hI
  by_cases hmem : sid ∈ c.activeSaves
  · simp only [completeSave, if_pos hmem]
    refine ⟨fun ch hch hval => hE ch hch hval, fun h2 => hL h2,
      ⟨(chOpenB_nextOpt _ _).trans hS.1, (chOpenB_nextOpt _ _).trans hS.2⟩,
      ?_, ?_, fun hcl => hD hcl, fun l s hsub => hF l s hsub⟩
    · intro hne
      exact hM (erase_ne_nil _ _ hne)
    · intro hne hcl
      exact hC (erase_ne_nil _ _ hne) hcl
  · simp only [completeSave, if_neg hmem]
    exact ⟨hE, hL, hS, hM, hC, hD, hF⟩

theorem sInv_completeLoad (c : RxCacheItem V) (l : Nat) (item : V) (hI : SInv c) :
    SInv (completeLoad c l item) := by
  obtain ⟨hE, hL, hS, hM, hC, hD, hF⟩ := hI
  rcases hsub : c.subscription with _ | sub
  · simp only [completeLoad, hsub]
    exact ⟨hE, hL, hS, hM, hC, hD, hF⟩
  · simp only [completeLoad, hsub]
    by_cases hl : sub.1 = l
    · rw [if_pos hl]
      refine ⟨fun ch hch hval => hE ch hch hval, ?_, ⟨hS.1, hS.2⟩,
        fun hne => hM hne, ?_, ?_, ?_⟩
      · intro h2
        have h3 : (c.instanceBS.next (some item)).closed = false := h2
        rw [Chan.closed_next] at h3
        obtain ⟨o1, o2, o3, o4⟩ := hL h3
        exact ⟨(chOpenB_nextOpt _ _).trans o1, (chOpenB_nextOpt _ _).trans o2,
          o3, o4⟩
      · intro hne hcl
        have h3 : (c.instanceBS.next (some item)).closed = true := hcl
        rw [Chan.closed_next] at h3
        exact hC hne h3
      · intro hcl
        have h3 : (c.instanceBS.next (some item)).closed = true := hcl
        rw [Chan.closed_next] at h3
        have h4 := hD h3
        rw [h4] at hsub
        exact absurd hsub (by simp)
      · intro l2 s2 hs2
        have h2 : c.subscription = some (l2, s2) := by rw [hsub]; exact hs2
        exact hF l2 s2 h2
    · rw [if_neg hl]
      exact ⟨hE, hL, hS, hM, hC, hD, hF⟩

theorem sInv_runErrorHandler_open (env : Env E) (e : E) (c : RxCacheItem V)
    (hI : SInv c) (hopen : c.instanceBS.closed = false) :
    SInv (runErrorHandler env e c) := by
  obtain ⟨hE, hL, hS, hM, hC, hD, hF⟩ := hI
  obtain ⟨o1, o2, o3, o4⟩ := hL hopen
  obtain ⟨hk1, hk2, hk3, hk4, hk5, hk6, hk7, hk8, hk9, hk10⟩ :=
    runErrorHandler_keeps env e c
  have hcl : (runErrorHandler env e c).instanceBS.closed = false := by
    rw [hk1]
    exact hopen
  refine ⟨?_, ?_, ?_, ?_, ?_, ?_, ?_⟩
  · intro ch hch hval
    obtain ⟨m, hm⟩ := errorMessageOf_isSome env c e
    have he : (runErrorHandler env e c).errorBS
        = some ⟨errorMessageOf env c e, false⟩ := by
      rw [runErrorHandler_errorBS]
      exact getNext_open _ _ _ o4
    exact ⟨⟨errorMessageOf env c e, false⟩, m, he, hm⟩
  · intro _
    refine ⟨?_, ?_, ?_, ?_⟩
    · rw [runErrorHandler_loadedBS]
      split
      · exact (chOpenB_getNext _ _ _).trans o1
      · exact o1
    · rw [runErrorHandler_loadingBS]
      split
      · exact (chOpenB_getNext _ _ _).trans o2
      · exact o2
    · rw [runErrorHandler_hasErrorBS]
      exact (chOpenB_getNext _ _ _).trans o3
    · rw [runErrorHandler_errorBS]
      exact (chOpenB_getNext _ _ _).trans o4
  · constructor
    · rw [runErrorHandler_savingBS]
      split
      · exact (chOpenB_getNext _ _ _).trans hS.1
      · exact hS.1
    · rw [runErrorHandler_savedBS]
      split
      · exact (chOpenB_getNext _ _ _).trans hS.2
      · exact hS.2
  · intro _
    constructor
    · rw [runErrorHandler_hasErrorBS]
      exact isSome_getNext _ _ _
    · rw [runErrorHandler_errorBS]
      exact isSome_getNext _ _ _
  · intro hne hcl2
    exact (false_of_tf _ hcl hcl2).elim
  · intro hcl2
    exact (false_of_tf _ hcl hcl2).elim
  · intro l s hsub
    rw [hk7] at hsub
    rw [hk8]
    exact hF l s hsub

theorem sInv_failLoad (env : Env E) (c : RxCacheItem V) (l : Nat) (e : E)
    (hI : SInv c) : SInv (failLoad env c l e) := by
  obtain ⟨hE, hL, hS, hM, hC, hD, hF⟩ := hI
  rcases hsub : c.subscription with _ | sub
  · simp only [failLoad, hsub]
    exact ⟨hE, hL, hS, hM, hC, hD, hF⟩
  · simp only [failLoad, hsub]
    by_cases hl : sub.1 = l
    · rw [if_pos hl]
      have hopen : c.instanceBS.closed = false := by
        by_contra hcl
        have hcl2 : c.instanceBS.closed = true := by simpa using hcl
        rw [hD hcl2] at hsub
        exact absurd hsub (by simp)
      exact sInv_runErrorHandler_open env e c ⟨hE, hL, hS, hM, hC, hD, hF⟩ hopen
    · rw [if_neg hl]
      exact ⟨hE, hL, hS, hM, hC, hD, hF⟩

theorem sInv_failSave (env : Env E) (c : RxCacheItem V) (sid : Nat) (e : E)
    (hI : SInv c) : SInv (failSave env c sid e) := by
  obtain ⟨hE, hL, hS, hM, hC, hD, hF⟩ := hI
  by_cases hmem : sid ∈ c.activeSaves
  · simp only [failSave, if_pos hmem]
    have hne : c.activeSaves ≠ [] := by
      intro h0
      rw [h0] at hmem
      exact absurd hmem (by simp)
    obtain ⟨hk1, hk2, hk3, hk4, hk5, hk6, hk7, hk8, hk9, hk10⟩ :=
      runErrorHandler_keeps env e c
    by_cases hcl : c.instanceBS.closed = true
    · obtain ⟨cs1, cs2⟩ := hC hne hcl
      have heq1 : (runErrorHandler env e c).hasErrorBS = c.hasErrorBS := by
        rw [runErrorHandler_hasErrorBS]
        exact getNext_closed _ _ _ cs1
      have heq2 : (runErrorHandler env e c).errorBS = c.errorBS := by
        rw [runErrorHandler_errorBS]
        exact getNext_closed _ _ _ cs2
      refine ⟨?_, ?_, ?_, ?_, ?_, ?_, ?_⟩
      · intro ch hch hval
        have hch2 : c.hasErrorBS = some ch := by
          rw [← heq1]
          exact hch
        obtain ⟨ch2, m, hech, hem⟩ := hE ch hch2 hval
        refine ⟨ch2, m, ?_, hem⟩
        show (runErrorHandler env e c).errorBS = some ch2
        rw [heq2]
        exact hech
      · intro h2
        have h3 : (runErrorHandler env e c).instanceBS.closed = false := h2
        rw [hk1] at h3
        exact (false_of_tf _ h3 hcl).elim
      · constructor
        · show chOpenB (runErrorHandler env e c).savingBS = true
          rw [runErrorHandler_savingBS]
          split
          · exact (chOpenB_getNext _ _ _).trans hS.1
          · exact hS.1
        · show chOpenB (runErrorHandler env e c).savedBS = true
          rw [runErrorHandler_savedBS]
          split
          · exact (chOpenB_getNext _ _ _).trans hS.2
          · exact hS.2
      · intro _
        constructor
        · show (runErrorHandler env e c).hasErrorBS.isSome = true
          rw [heq1]
          exact (hM hne).1
        · show (runErrorHandler env e c).errorBS.isSome = true
          rw [heq2]
          exact (hM hne).2
      · intro _ _
        constructor
        · show chOpenB (runErrorHandler env e c).hasErrorBS = false
          rw [heq1]
          exact cs1
        · show chOpenB (runErrorHandler env e c).errorBS = false
          rw [heq2]
          exact cs2
      · intro _
        show (runErrorHandler env e c).subscription = none
        rw [hk7]
        exact hD hcl
      · intro l s hsub
        have h2 : (runErrorHandler env e c).subscription = some (l, s) := hsub
        rw [hk7] at h2
        show l < (runErrorHandler env e c).nextLoadId
        rw [hk8]
        exact hF l s h2
    · have hopen : c.instanceBS.closed = false := by simpa using hcl
      obtain ⟨rE, rL, rS, rM, rC, rD, rF⟩ :=
        sInv_runErrorHandler_open env e c ⟨hE, hL, hS, hM, hC, hD, hF⟩ hopen
      refine ⟨fun ch hch hval => rE ch hch hval, fun h2 => rL h2,
        ⟨rS.1, rS.2⟩, ?_, ?_, ?_, fun l s hsub => rF l s hsub⟩
      · intro _
        apply rM
        rw [hk9]
        exact hne
      · intro _ hcl2
        have h3 : (runErrorHandler env e c).instanceBS.closed = true := hcl2
        rw [hk1] at h3
        exact (false_of_tf _ hopen h3).elim
      · intro hcl2
        have h3 : (runErrorHandler env e c).instanceBS.closed = true := hcl2
        rw [hk1] at h3
        exact (false_of_tf _ hopen h3).elim
  · simp only [failSave, if_neg hmem]
    exact ⟨hE, hL, hS, hM, hC, hD, hF⟩

theorem sInv_configureInit (c : RxCacheItem V) (cfg : RxCacheItemConfig V)
    (hI : SInv c) (hopen : c.instanceBS.closed = false) :
    SInv (configureInit c cfg) ∧ (configureInit c cfg).instanceBS.closed = false := by
  unfold configureInit
  split
  · obtain ⟨hE, hL, hS, hM, hC, hD, hF⟩ := hI
    have hcl : (c.instanceBS.next cfg.initialValue).closed = false := by
      rw [Chan.closed_next]
      exact hopen
    constructor
    · refine ⟨fun ch hch hval => hE ch hch hval, ?_, ⟨hS.1, hS.2⟩,
        fun hne => hM hne, ?_, ?_, fun l s hsub => hF l s hsub⟩
      · intro _
        obtain ⟨o1, o2, o3, o4⟩ := hL hopen
        exact ⟨(chOpenB_nextOpt _ _).trans o1, o2, o3, o4⟩
      · intro hne hcl2
        have h3 : (c.instanceBS.next cfg.initialValue).closed = true := hcl2
        exact (false_of_tf _ hcl h3).elim
      · intro hcl2
        have h3 : (c.instanceBS.next cfg.initialValue).closed = true := hcl2
        exact (false_of_tf _ hcl h3).elim
    · exact hcl
  · exact ⟨hI, hopen⟩

theorem sInv_configureMerge (c : RxCacheItem V) (cfg : RxCacheItemConfig V)
    (hI : SInv c) (hopen : c.instanceBS.closed = false) :
    SInv (configureMerge c cfg) ∧
      (configureMerge c cfg).instanceBS.closed = false := by
  obtain ⟨hE, hL, hS, hM, hC, hD, hF⟩ := hI
  unfold configureMerge
  split
  · constructor
    · refine ⟨fun ch hch hval => hE ch hch hval, fun h2 => hL h2,
        ⟨hS.1, hS.2⟩, fun hne => hM hne, fun hne hcl => hC hne hcl,
        fun _ => rfl, ?_⟩
      intro l s hsub
      have h2 : (none : Option (Nat × Nat)) = some (l, s) := hsub
      exact absurd h2 (by simp)
    · exact hopen
  · constructor
    · exact ⟨fun ch hch hval => hE ch hch hval, fun h2 => hL h2,
        ⟨hS.1, hS.2⟩, fun hne => hM hne, fun hne hcl => hC hne hcl,
        fun hcl => hD hcl, fun l s hsub => hF l s hsub⟩
    · exact hopen

theorem sInv_configure (c : RxCacheItem V) (cfg : RxCacheItemConfig V)
    (hI : SInv c) (hopen : c.instanceBS.closed = false) :
    SInv (configure c cfg) := by
  obtain ⟨h1, h2⟩ := sInv_configureInit c cfg hI hopen
  obtain ⟨h3, h4⟩ := sInv_configureMerge (configureInit c cfg) cfg h1 h2
  unfold configure
  split
  · exact sInv_refresh _ h3 h4
  · exact h3

theorem sInv_readValue (c : RxCacheItem V) (hI : SInv c)
    (hopen : c.instanceBS.closed = false) : SInv (readValue c) := by
  have hr := sInv_readLoaded c hI
  unfold readValue
  rcases hco : c.construct with _ | src
  · simp only [hco]
    exact hI
  · simp only [hco]
    split
    · exact hr
    · exact sInv_refresh _ hr hopen

theorem sInv_step (env : Env E) (c : RxCacheItem V) (op : Op V E)
    (hI : SInv c) : SInv (step env c op) := by
  cases op with
  | configure cfg =>
    simp only [step]
    split
    · exact hI
    · rename_i h
      exact sInv_configure c cfg hI (by simpa using h)
  | update v =>
    simp only [step]
    split
    · exact hI
    · rename_i h
      exact sInv_update c v hI (by simpa using h)
  | save =>
    simp only [step]
    split
    · exact hI
    · rename_i h
      exact sInv_save c hI (by simpa using h)
  | reload src =>
    simp only [step]
    split
    · exact hI
    · rename_i h
      exact sInv_reload c src hI (by simpa using h)
  | reset v =>
    simp only [step]
    split
    · exact hI
    · rename_i h
      exact sInv_reset c v hI (by simpa using h)
  | refresh =>
    simp only [step]
    split
    · exact hI
    · rename_i h
      exact sInv_refresh c hI (by simpa using h)
  | readValue =>
    simp only [step]
    split
    · exact hI
    · rename_i h
      exact sInv_readValue c hI (by simpa using h)
  | finish => exact sInv_finish c hI
  | readLoaded => exact sInv_readLoaded c hI
  | readLoading => exact sInv_readLoading c hI
  | readSaving => exact sInv_readSaving c hI
  | readSaved => exact sInv_readSaved c hI
  | readHasError => exact sInv_readHasError c hI
  | readError => exact sInv_readError c hI
  | completeLoad l item => exact sInv_completeLoad c l item hI
  | failLoad l e => exact sInv_failLoad env c l e hI
  | completeSave sid => exact sInv_completeSave c sid hI
  | failSave sid e => exact sInv_failSave env c sid e hI

theorem sInv_run (env : Env E) (c : RxCacheItem V) (ops : List (Op V E))
    (hI : SInv c) : SInv (run env c ops) := by
  induction ops generalizing c with
  | nil => exact hI
  | cons op rest ih => exact ih (step env c op) (sInv_step env c op hI)

theorem sInv_create (cfg : RxCacheItemConfig V) : SInv (create cfg) := by
  unfold create
  apply sInv_configure
  · refine ⟨?_, ?_, ?_, ?_, ?_, ?_, ?_⟩
    · intro ch hch hval
      exact absurd hch (by simp)
    · intro _
      exact ⟨rfl, rfl, rfl, rfl⟩
    · exact ⟨rfl, rfl⟩
    · intro hne
      exact absurd rfl hne
    · intro hne _
      exact absurd rfl hne
    · intro _
      rfl
    · intro l s hsub
      exact absurd hsub (by simp)
  · rfl

theorem reachable_sInv (env : Env E) (c : RxCacheItem V)
    (h : Reachable env c) : SInv c := by
  obtain ⟨cfg, ops, hc⟩ := h
  rw [hc]
  exact sInv_run env (create cfg) ops (sInv_create cfg)

theorem staleP_refresh (a : Nat) (c : RxCacheItem V) (h : StaleP a c) :
    StaleP a (refresh c) := by
  obtain ⟨h1, h2⟩ := h
  rcases hco : c.construct with _ | src
  · simp only [refresh, hco]
    exact ⟨h1, h2⟩
  · simp only [refresh, hco]
    constructor
    · show a < c.nextLoadId + 1
      omega
    · intro s hs2
      have h3 : some (c.nextLoadId, src) = some (a, s) := hs2
      injection h3 with h4
      have h5 : c.nextLoadId = a := congrArg Prod.fst h4
      omega

theorem staleP_reload (a : Nat) (c : RxCacheItem V) (src : Nat)
    (h : StaleP a c) : StaleP a (reload c src) := by
  obtain ⟨h1, h2⟩ := h
  constructor
  · show a < c.nextLoadId + 1
    omega
  · intro s hs2
    have h3 : some (c.nextLoadId, src) = some (a, s) := hs2
    injection h3 with h4
    have h5 : c.nextLoadId = a := congrArg Prod.fst h4
    omega

theorem staleP_step (env : Env E) (a : Nat) (c : RxCacheItem V) (op : Op V E)
    (h : StaleP a c) : StaleP a (step env c op) := by
  cases op with
  | configure cfg =>
    simp only [step]
    split
    · exact h
    · have hInit : StaleP a (configureInit c cfg) := by
        unfold configureInit
        split
        · exact ⟨h.1, h.2⟩
        · exact h
      have hMerge : StaleP a (configureMerge (configureInit c cfg) cfg) := by
        unfold configureMerge
        split
        · refine ⟨hInit.1, ?_⟩
          intro s hs2
          have h3 : (none : Option (Nat × Nat)) = some (a, s) := hs2
          exact absurd h3 (by simp)
        · exact hInit
      unfold configure
      split
      · exact staleP_refresh a _ hMerge
      · exact hMerge
  | update v =>
    simp only [step]
    split
    · exact h
    · exact ⟨h.1, h.2⟩
  | save =>
    simp only [step]
    split
    · exact h
    · rcases hp : c.persist with _ | p <;> simp only [save, hp]
      · exact h
      · exact ⟨h.1, h.2⟩
  | reload src =>
    simp only [step]
    split
    · exact h
    · exact staleP_reload a c src h
  | reset v =>
    simp only [step]
    split
    · exact h
    · refine ⟨h.1, ?_⟩
      intro s hs2
      have h3 : (none : Option (Nat × Nat)) = some (a, s) := hs2
      exact absurd h3 (by simp)
  | refresh =>
    simp only [step]
    split
    · exact h
    · exact staleP_refresh a c h
  | readValue =>
    simp only [step]
    split
    · exact h
    · unfold readValue
      rcases hco : c.construct with _ | src
      · simp only [hco]
        exact h
      · simp only [hco]
        split
        · exact ⟨h.1, h.2⟩
        · exact staleP_refresh a (readLoaded c) ⟨h.1, h.2⟩
  | finish =>
    refine ⟨h.1, ?_⟩
    intro s hs2
    have h3 : (none : Option (Nat × Nat)) = some (a, s) := hs2
    exact absurd h3 (by simp)
  | readLoaded => exact ⟨h.1, h.2⟩
  | readLoading => exact ⟨h.1, h.2⟩
  | readSaving => exact ⟨h.1, h.2⟩
  | readSaved => exact ⟨h.1, h.2⟩
  | readHasError => exact ⟨h.1, h.2⟩
  | readError => exact ⟨h.1, h.2⟩
  | completeLoad l item =>
    simp only [step]
    rcases hs : c.subscription with _ | sub
    · simp only [completeLoad, hs]
      exact h
    · simp only [completeLoad, hs]
      by_cases hl : sub.1 = l
      · rw [if_pos hl]
        refine ⟨h.1, ?_⟩
        intro s hs2
        have h3 : c.subscription = some (a, s) := by
          rw [hs]
          exact hs2
        exact h.2 s h3
      · rw [if_neg hl]
        exact h
  | failLoad l e =>
    simp only [step]
    rcases hs : c.subscription with _ | sub
    · simp only [failLoad, hs]
      exact h
    · simp only [failLoad, hs]
      by_cases hl : sub.1 = l
      · rw [if_pos hl]
        obtain ⟨hk1, hk2, hk3, hk4, hk5, hk6, hk7, hk8, hk9, hk10⟩ :=
          runErrorHandler_keeps env e c
        constructor
        · rw [hk8]
          exact h.1
        · intro s hs2
          rw [hk7] at hs2
          exact h.2 s hs2
      · rw [if_neg hl]
        exact h
  | completeSave sid =>
    simp only [step]
    by_cases hmem : sid ∈ c.activeSaves
    · simp only [completeSave, if_pos hmem]
      exact ⟨h.1, h.2⟩
    · simp only [completeSave, if_neg hmem]
      exact h
  | failSave sid e =>
    simp only [step]
    by_cases hmem : sid ∈ c.activeSaves
    · simp only [failSave, if_pos hmem]
      obtain ⟨hk1, hk2, hk3, hk4, hk5, hk6, hk7, hk8, hk9, hk10⟩ :=
        runErrorHandler_keeps env e c
      constructor
      · show a < (runErrorHandler env e c).nextLoadId
        rw [hk8]
        exact h.1
      · intro s hs2
        have h3 : (runErrorHandler env e c).subscription = some (a, s) := hs2
        rw [hk7] at h3
        exact h.2 s h3
    · simp only [failSave, if_neg hmem]
      exact h

theorem staleP_run (env : Env E) (a : Nat) (c : RxCacheItem V)
    (ops : List (Op V E)) (h : StaleP a c) : StaleP a (run env c ops) := by
  induction ops generalizing c with
  | nil => exact h
  | cons op rest ih => exact ih (step env c op) (staleP_step env a c op h)

theorem chVal_getNext_true (o : Option (Chan Bool)) (x : Chan Bool)
    (ho : o = some x) (hval : x.val = true) :
    chVal (getNext o false true) false = true := by
  subst ho
  by_cases hb : x.closed = true
  · rw [getNext_closed _ _ _ (by simp [chOpenB, hb])]
    simp [chVal, hval]
  · have hb2 : x.closed = false := by simpa using hb
    rw [getNext_open _ _ _ (by simp [chOpenB, hb2])]
    rfl

theorem configureInit_channels (c : RxCacheItem V) (cfg : RxCacheItemConfig V) :
    (configureInit c cfg).hasErrorBS = c.hasErrorBS ∧
    (configureInit c cfg).errorBS = c.errorBS := by
  unfold configureInit
  split <;> exact ⟨rfl, rfl⟩

theorem configureMerge_channels (c : RxCacheItem V) (cfg : RxCacheItemConfig V) :
    (configureMerge c cfg).hasErrorBS = c.hasErrorBS ∧
    (configureMerge c cfg).errorBS = c.errorBS := by
  unfold configureMerge unsubscribe
  split <;> exact ⟨rfl, rfl⟩

/-- C2 counterexample input: the cell was configured with construct 1, then
`reload` is called with construct 2.  The claim says the stored default source
is left unchanged (still 1); in fact `reload` stores the passed construct
(source line 144). -/
theorem C2_counterexample :
    ¬ ((reload (create cfgC2 : RxCacheItem Nat) 2).construct = some 1) := by
  decide

/-- C2 (amended): `reload(f)` persists `f` as the cell's construct, and a
subsequent no-argument `refresh` subscribes that same construct. -/
theorem C2_reload_persists_construct (c : RxCacheItem V) (src : Nat) :
    (reload c src).construct = some src ∧
    (refresh (reload c src)).subscription = some ((reload c src).nextLoadId, src) := by
  refine ⟨rfl, ?_⟩
  simp [reload, refresh]

/-- C3 counterexample input: the saving channel is materialized (by a getter
access) and then `finish` is called.  The claim says the materialized saving
channel gets closed; in fact `finish` (source lines 170-177) never completes
`_saving$` or `_saved$`, so the channel is still open. -/
theorem C3_counterexample :
    ¬ (chOpenB (finish (readSaving (create cfgPlain : RxCacheItem Nat))).savingBS
        = false) := by
  decide

/-- C3 (amended): `finish` closes the value channel and the materialized
loading, loaded, error and hasError channels (a channel is closed afterwards
exactly when it was materialized), cancels the active load, and is idempotent
(so a second call does not raise); the saving and saved channels are left
untouched, open even when materialized. -/
theorem C3_finish_closes (c : RxCacheItem V) :
    (finish c).instanceBS.closed = true ∧
    chOpenB (finish c).loadingBS = !c.loadingBS.isSome ∧
    chOpenB (finish c).loadedBS = !c.loadedBS.isSome ∧
    chOpenB (finish c).errorBS = !c.errorBS.isSome ∧
    chOpenB (finish c).hasErrorBS = !c.hasErrorBS.isSome ∧
    (finish c).savingBS = c.savingBS ∧
    (finish c).savedBS = c.savedBS ∧
    (finish c).subscription = none ∧
    finish (finish c) = finish c := by
  refine ⟨rfl, ?_, ?_, ?_, ?_, rfl, rfl, rfl, ?_⟩ <;>
    simp [finish, chOpenB_completeOpt, completeOpt_completeOpt,
      Chan.complete_complete]

/-- C4 counterexample input: a finished cell with a materialized hasError
channel.  The claim says a subsequent `update` is signaled as a fatal
precondition failure; in fact every write lands on a completed subject and is
silently absorbed, leaving the cell state unchanged and raising nothing. -/
theorem C4_counterexample :
    update (finish (readHasError (create cfgPlain : RxCacheItem Nat))) (some 7)
      = finish (readHasError (create cfgPlain : RxCacheItem Nat)) := by
  decide

/-- C4 (amended): after `finish()`, no mutator call is signaled as a fatal
precondition failure — every mutator returns silently.  `update` and `reset`
are complete no-ops on the cell state (each of their writes lands on a
completed subject); `save` is not: without a sink it is a no-op, but with a
sink configured it still executes, setting the never-completed saving channel
to true; `reload` likewise still stores its construct and records a fresh
subscription. -/
theorem C4_mutator_after_finish_not_signaled (c : RxCacheItem V) (v : Option V)
    (f : Nat) :
    update (finish c) v = finish c ∧
    reset (finish c) v = finish c ∧
    (c.persist = none → save (finish c) = finish c) ∧
    (∀ p, c.persist = some p → chOpenB c.savingBS = true →
      obsSaving (save (finish c)) = true) ∧
    (reload (finish c) f).construct = some f ∧
    (reload (finish c) f).subscription = some ((finish c).nextLoadId, f) := by
  refine ⟨?_, ?_, ?_, ?_, rfl, rfl⟩
  · obtain ⟨id, inst, lo, lg, sv, sd, he, er, ge, co, pe, sc, eh, su, nl, as_, ns⟩ := c
    simp [update, finish, nextOpt_completeOpt, Chan.next_complete, Chan.complete,
      Chan.next]
  · obtain ⟨id, inst, lo, lg, sv, sd, he, er, ge, co, pe, sc, eh, su, nl, as_, ns⟩ := c
    simp [reset, finish, nextOpt_completeOpt, Chan.next_complete, Chan.complete,
      Chan.next]
  · intro hp
    have hp2 : (finish c).persist = none := hp
    simp only [save, hp2]
  · intro p hp hopen
    have hp2 : (finish c).persist = some p := hp
    simp only [save, hp2]
    show chVal (getNext (finish c).savingBS false true) false = true
    have hsv : (finish c).savingBS = c.savingBS := rfl
    rw [hsv]
    exact chVal_getNext_open _ _ _ _ hopen

/-- C4 witness: the hypotheses of `C4_mutator_after_finish_not_signaled` hold
on a concrete cell with a sink, where a save after finish still sets
saving=true. -/
theorem C4_witness :
    (create cfgPersist : RxCacheItem Nat).persist = some 4 ∧
    chOpenB (create cfgPersist : RxCacheItem Nat).savingBS = true ∧
    obsSaving (save (finish (create cfgPersist : RxCacheItem Nat))) = true :=
  ⟨by decide, by decide,
    (C4_mutator_after_finish_not_signaled (create cfgPersist) none 2).2.2.2.1 4
      (by decide) (by decide)⟩

/-- C9 counterexample input: the cell has genericError `"old"`, then
`configure` supplies the present-but-empty string `""`.  The claim says a
present field always overwrites, so genericError should become `""`; in fact
the `||` merge (source line 33) keeps `"old"`. -/
theorem C9_counterexample :
    ¬ ((configure (create cfgOldGE : RxCacheItem Nat) cfgEmptyGE).genericError
        = some ("")) := by
  decide

/-- C9 (amended): `configure` merges with JavaScript `||`: a supplied field
overwrites exactly when it is truthy (a present function reference; a present
non-empty string), and the previous value is preserved when the field is
absent or falsy (such as an empty string). -/
theorem refresh_genericError (c : RxCacheItem V) :
    (refresh c).genericError = c.genericError := by
  cases h : c.construct <;> simp [refresh, h]

theorem refresh_construct (c : RxCacheItem V) :
    (refresh c).construct = c.construct := by
  cases h : c.construct <;> simp [refresh, h]

theorem refresh_persist (c : RxCacheItem V) :
    (refresh c).persist = c.persist := by
  cases h : c.construct <;> simp [refresh, h]

theorem refresh_savedCb (c : RxCacheItem V) :
    (refresh c).savedCb = c.savedCb := by
  cases h : c.construct <;> simp [refresh, h]

theorem refresh_errorHandler (c : RxCacheItem V) :
    (refresh c).errorHandler = c.errorHandler := by
  cases h : c.construct <;> simp [refresh, h]

theorem configureInit_keeps (c : RxCacheItem V) (cfg : RxCacheItemConfig V) :
    (configureInit c cfg).genericError = c.genericError ∧
    (configureInit c cfg).construct = c.construct ∧
    (configureInit c cfg).persist = c.persist ∧
    (configureInit c cfg).savedCb = c.savedCb ∧
    (configureInit c cfg).errorHandler = c.errorHandler := by
  unfold configureInit
  split <;> exact ⟨rfl, rfl, rfl, rfl, rfl⟩

theorem configureMerge_fields (c : RxCacheItem V) (cfg : RxCacheItemConfig V) :
    (configureMerge c cfg).genericError = jsOr cfg.genericError c.genericError ∧
    (configureMerge c cfg).construct = jsOrF cfg.construct c.construct ∧
    (configureMerge c cfg).persist = jsOrF cfg.persist c.persist ∧
    (configureMerge c cfg).savedCb = jsOrF cfg.savedCb c.savedCb ∧
    (configureMerge c cfg).errorHandler = jsOrF cfg.errorHandler c.errorHandler := by
  unfold configureMerge unsubscribe
  split <;> exact ⟨rfl, rfl, rfl, rfl, rfl⟩

theorem C9_configure_merge (c : RxCacheItem V) (cfg : RxCacheItemConfig V) :
    (configure c cfg).genericError = jsOr cfg.genericError c.genericError ∧
    (configure c cfg).construct = jsOrF cfg.construct c.construct ∧
    (configure c cfg).persist = jsOrF cfg.persist c.persist ∧
    (configure c cfg).savedCb = jsOrF cfg.savedCb c.savedCb ∧
    (configure c cfg).errorHandler = jsOrF cfg.errorHandler c.errorHandler := by
  obtain ⟨i1, i2, i3, i4, i5⟩ := configureInit_keeps c cfg
  obtain ⟨m1, m2, m3, m4, m5⟩ := configureMerge_fields (configureInit c cfg) cfg
  unfold configure
  split <;>
    refine ⟨?_, ?_, ?_, ?_, ?_⟩ <;>
      simp [refresh_genericError, refresh_construct, refresh_persist,
        refresh_savedCb, refresh_errorHandler, m1, m2, m3, m4, m5,
        i1, i2, i3, i4, i5]

/-- C5 counterexample input: a cell whose loaded channel was never
materialized is reset to the value 5.  The claim says the observable state
then satisfies loaded=false regardless of which channels are materialized
afterwards; in fact `reset` only writes the materialized `_loaded$`
(source line 155), and the later getter access materializes the channel with
`typeof value !== 'undefined'`, which is true — so loaded reads as true. -/
theorem C5_counterexample :
    ¬ (obsLoaded (reset (create cfgPlain : RxCacheItem Nat) (some 5)) = false) := by
  decide

/-- C5 (amended): on a live cell, `reset(v)` yields loading=false,
hasError=false, errorMessage absent, value=v, detaches the active load so a
pending load's later completion (success or failure) is a no-op on the cell,
and yields loaded=false provided the loaded channel was materialized before
the call or `v` is absent; when the loaded channel is first materialized
after a reset that carried a value, it reports loaded=true. -/
theorem C5_reset (c : RxCacheItem V) (v : Option V) (h : live c = true) :
    obsValue (reset c v) = v ∧
    obsLoading (reset c v) = false ∧
    obsHasError (reset c v) = false ∧
    obsError (reset c v) = none ∧
    (reset c v).subscription = none ∧
    (∀ l w, completeLoad (reset c v) l w = reset c v) ∧
    (∀ (E2 : Type) (env2 : Env E2) l e2, failLoad env2 (reset c v) l e2 = reset c v) ∧
    (c.loadedBS.isSome = true → obsLoaded (reset c v) = false) ∧
    (v = none → obsLoaded (reset c v) = false) := by
  rw [live_iff] at h
  obtain ⟨h1, h2, h3, h4, h5, h6, h7⟩ := h
  refine ⟨?_, ?_, ?_, ?_, rfl, fun l w => rfl, fun E2 env2 l e2 => rfl, ?_, ?_⟩
  · simp [reset, obsValue, Chan.next, h1]
  · simpa [obsLoading, reset] using chVal_nextOpt_self c.loadingBS false h3
  · simpa [obsHasError, reset] using chVal_nextOpt_self c.hasErrorBS false h4
  · simpa [obsError, reset] using chVal_nextOpt_self c.errorBS none h5
  · intro hm
    rcases hmat : c.loadedBS with _ | ch
    · rw [hmat] at hm
      simp at hm
    · simpa [obsLoaded, reset] using
        chVal_nextOpt_mat c.loadedBS ch false _ hmat h2
  · intro hv
    subst hv
    rcases hmat : c.loadedBS with _ | ch
    · simp [obsLoaded, reset, hmat, nextOpt, chVal, Chan.next, h1]
    · simpa [obsLoaded, reset] using
        chVal_nextOpt_mat c.loadedBS ch false _ hmat h2

/-- C5 witness: the hypotheses of `C5_reset` hold on a concrete live cell and
its conclusion evaluates there. -/
theorem C5_witness :
    live (create cfgPersist : RxCacheItem Nat) = true ∧
    obsValue (reset (create cfgPersist : RxCacheItem Nat) none) = none ∧
    obsLoaded (reset (create cfgPersist : RxCacheItem Nat) none) = false :=
  ⟨by decide, (C5_reset (create cfgPersist) none (by decide)).1,
    (C5_reset (create cfgPersist) none (by decide)).2.2.2.2.2.2.2.2 rfl⟩

/-- C6: on a live cell, `update(v)` sets the value to `v` and yields
loaded=true, loading=false, hasError=false, errorMessage absent, leaving the
saving and saved channels untouched. -/
theorem C6_update (c : RxCacheItem V) (v : V) (h : live c = true) :
    obsValue (update c (some v)) = some v ∧
    obsLoaded (update c (some v)) = true ∧
    obsLoading (update c (some v)) = false ∧
    obsHasError (update c (some v)) = false ∧
    obsError (update c (some v)) = none ∧
    (update c (some v)).savingBS = c.savingBS ∧
    (update c (some v)).savedBS = c.savedBS := by
  rw [live_iff] at h
  obtain ⟨h1, h2, h3, h4, h5, h6, h7⟩ := h
  refine ⟨?_, ?_, ?_, ?_, ?_, rfl, rfl⟩
  · simp [update, obsValue, Chan.next, h1]
  · rcases hmat : c.loadedBS with _ | ch
    · simp [obsLoaded, update, hmat, nextOpt, chVal, Chan.next, h1]
    · simpa [obsLoaded, update] using
        chVal_nextOpt_mat c.loadedBS ch true _ hmat h2
  · simpa [obsLoading, update] using chVal_nextOpt_self c.loadingBS false h3
  · simpa [obsHasError, update] using chVal_nextOpt_self c.hasErrorBS false h4
  · simpa [obsError, update] using chVal_nextOpt_self c.errorBS none h5

/-- C6 witness: the hypothesis of `C6_update` holds on a concrete live cell
and its conclusion evaluates there. -/
theorem C6_witness :
    live (create cfgPersist : RxCacheItem Nat) = true ∧
    (obsValue (update (create cfgPersist : RxCacheItem Nat) (some 42)) = some 42 ∧
     obsLoaded (update (create cfgPersist : RxCacheItem Nat) (some 42)) = true ∧
     obsLoading (update (create cfgPersist : RxCacheItem Nat) (some 42)) = false ∧
     obsHasError (update (create cfgPersist : RxCacheItem Nat) (some 42)) = false ∧
     obsError (update (create cfgPersist : RxCacheItem Nat) (some 42)) = none ∧
     (update (create cfgPersist : RxCacheItem Nat) (some 42)).savingBS
        = (create cfgPersist : RxCacheItem Nat).savingBS ∧
     (update (create cfgPersist : RxCacheItem Nat) (some 42)).savedBS
        = (create cfgPersist : RxCacheItem Nat).savedBS) :=
  ⟨by decide, C6_update (create cfgPersist) 42 (by decide)⟩

/-- C7: when the error channel is open, a failing operation's error message
is exactly the spec's three-step fallback chain; in particular, with no cell
handler, no cell genericError, no global handler and global generic text
`"Something went wrong"`, the message is `"Something went wrong"`. -/
theorem C7_error_chain (env : Env E) (c : RxCacheItem V) (e : E)
    (h : chOpenB c.errorBS = true) :
    obsError (runErrorHandler env e c) = some (specFinalMessage env c e) ∧
    (env.globalHandler = none → env.globalGenericError = "Something went wrong" →
      c.errorHandler = none → c.genericError = none →
      obsError (runErrorHandler env e c) = some ("Something went wrong")) := by
  have h1 : obsError (runErrorHandler env e c) = errorMessageOf env c e := by
    rw [obsError, runErrorHandler_errorBS]
    exact chVal_getNext_open _ _ _ _ h
  have hcp : (match c.errorHandler with
              | some hid => generateErrorMessage env c hid e
              | none => c.genericError) = specCellOwnMessage env c e := by
    rcases hehm : c.errorHandler with _ | hid <;>
      simp [generateErrorMessage, specCellOwnMessage, jsOr, hehm]
  have hgf : globalConfigErrorOf env e = specGlobalFallback env e := rfl
  have h2 : errorMessageOf env c e = some (specFinalMessage env c e) := by
    unfold errorMessageOf
    rw [hcp, hgf, jsOr_chain_getD]
    rfl
  constructor
  · rw [h1, h2]
  · intro hg hgge heh hge
    rw [h1, h2]
    simp [specFinalMessage, specCellOwnMessage, specGlobalFallback, truthyStr,
      heh, hge, hg, hgge]

/-- C7 witness: the hypotheses of `C7_error_chain` hold on a concrete cell
(no handlers, global generic text `"Something went wrong"`) and the failing
load's message evaluates to `"Something went wrong"`. -/
theorem C7_witness :
    chOpenB (cellW.errorBS) = true ∧
    obsError (runErrorHandler envW 9 cellW) = some ("Something went wrong") :=
  ⟨by decide,
    (C7_error_chain envW cellW 9 (by decide)).2 rfl rfl (by decide)
      (by decide)⟩

/-- C8: on a live cell, the failure path sets hasError=true; with a construct
configured it also forces loaded=false and loading=false, with a persist
configured it also forces saved=false and saving=false (both when both are
configured), and a failing save with an open gate yields saving=false,
saved=false, hasError=true. -/
theorem C8_failure_flags (env : Env E) (c : RxCacheItem V) (e : E)
    (h : live c = true) :
    obsHasError (runErrorHandler env e c) = true ∧
    (c.construct.isSome = true →
      obsLoaded (runErrorHandler env e c) = false ∧
      obsLoading (runErrorHandler env e c) = false) ∧
    (c.persist.isSome = true →
      obsSaved (runErrorHandler env e c) = false ∧
      obsSaving (runErrorHandler env e c) = false) ∧
    (∀ sid, sid ∈ c.activeSaves → c.persist.isSome = true →
      obsSaving (failSave env c sid e) = false ∧
      obsSaved (failSave env c sid e) = false ∧
      obsHasError (failSave env c sid e) = true) := by
  rw [live_iff] at h
  obtain ⟨h1, h2, h3, h4, h5, h6, h7⟩ := h
  have hhe : obsHasError (runErrorHandler env e c) = true := by
    rw [obsHasError, runErrorHandler_hasErrorBS]
    exact chVal_getNext_open _ _ _ _ h4
  have hsv : c.persist.isSome = true → obsSaving (runErrorHandler env e c) = false := by
    intro hp
    rw [obsSaving, runErrorHandler_savingBS, if_pos hp]
    exact chVal_getNext_open _ _ _ _ h6
  have hsd : c.persist.isSome = true → obsSaved (runErrorHandler env e c) = false := by
    intro hp
    rw [obsSaved, runErrorHandler_savedBS, if_pos hp]
    exact chVal_getNext_open _ _ _ _ h7
  refine ⟨hhe, ?_, ?_, ?_⟩
  · intro hco
    constructor
    · rw [obsLoaded, runErrorHandler_loadedBS, if_pos hco]
      exact chVal_getNext_open _ _ _ _ h2
    · rw [obsLoading, runErrorHandler_loadingBS, if_pos hco]
      exact chVal_getNext_open _ _ _ _ h3
  · intro hp
    exact ⟨hsd hp, hsv hp⟩
  · intro sid hsid hp
    have hfs : failSave env c sid e
        = { runErrorHandler env e c with activeSaves := c.activeSaves.erase sid } := by
      rw [failSave, if_pos hsid]
    rw [hfs]
    exact ⟨hsv hp, hsd hp, hhe⟩

/-- C8 witness: the hypotheses of `C8_failure_flags` hold on a concrete live
cell with both a construct and a persist sink and an in-flight save, and the
conclusion evaluates there. -/
theorem C8_witness :
    live cellBoth = true ∧ cellBoth.construct.isSome = true ∧
    cellBoth.persist.isSome = true ∧ 0 ∈ cellBoth.activeSaves ∧
    obsHasError (runErrorHandler envW 7 cellBoth) = true ∧
    obsLoaded (runErrorHandler envW 7 cellBoth) = false ∧
    obsSaving (failSave envW cellBoth 0 7) = false :=
  ⟨by decide, by decide, by decide, by decide,
    (C8_failure_flags envW cellBoth 7 (by decide)).1,
    ((C8_failure_flags envW cellBoth 7 (by decide)).2.1 (by decide)).1,
    ((C8_failure_flags envW cellBoth 7 (by decide)).2.2.2 0 (by decide)
      (by decide)).1⟩

/-- C1: on any reachable cell with an active load `a`, starting a new load —
by `refresh` when a construct is configured, or by `reload` with any
construct — supersedes `a`, and from then on, after any further valid trace,
the completion of load `a` (success or failure) is a no-op on the cell
state. -/
theorem C1_superseded_load_noop (env : Env E) (c : RxCacheItem V)
    (a s0 : Nat) (hR : Reachable env c)
    (hsub : c.subscription = some (a, s0)) :
    (∀ src, c.construct = some src →
      ∀ (ops2 : List (Op V E)) (v : V) (e : E),
        completeLoad (run env (refresh c) ops2) a v = run env (refresh c) ops2 ∧
        failLoad env (run env (refresh c) ops2) a e
          = run env (refresh c) ops2) ∧
    (∀ (f : Nat) (ops2 : List (Op V E)) (v : V) (e : E),
      completeLoad (run env (reload c f) ops2) a v = run env (reload c f) ops2 ∧
      failLoad env (run env (reload c f) ops2) a e = run env (reload c f) ops2) := by
  have hF := (reachable_sInv env c hR).2.2.2.2.2.2
  have ha : a < c.nextLoadId := hF a s0 hsub
  have hnoop : ∀ c2 : RxCacheItem V, StaleP a c2 → ∀ (v : V) (e : E),
      completeLoad c2 a v = c2 ∧ failLoad env c2 a e = c2 := by
    intro c2 hst v e
    obtain ⟨h1, h2⟩ := hst
    rcases hs2 : c2.subscription with _ | ⟨l1, s1⟩
    · constructor
      · simp only [completeLoad, hs2]
      · simp only [failLoad, hs2]
    · have hne : ¬(l1 = a) := by
        intro heq
        exact h2 s1 (by rw [hs2, heq])
      constructor
      · simp only [completeLoad, hs2]
        rw [if_neg hne]
      · simp only [failLoad, hs2]
        rw [if_neg hne]
  constructor
  · intro src hco ops2 v e
    have hst : StaleP a (refresh c) := by
      simp only [refresh, hco]
      constructor
      · show a < c.nextLoadId + 1
        omega
      · intro s hs2
        have h3 : some (c.nextLoadId, src) = some (a, s) := hs2
        injection h3 with h4
        have h5 : c.nextLoadId = a := congrArg Prod.fst h4
        omega
    exact hnoop _ (staleP_run env a _ ops2 hst) v e
  · intro f ops2 v e
    have hst : StaleP a (reload c f) := by
      constructor
      · show a < c.nextLoadId + 1
        omega
      · intro s hs2
        have h3 : some (c.nextLoadId, f) = some (a, s) := hs2
        injection h3 with h4
        have h5 : c.nextLoadId = a := congrArg Prod.fst h4
        omega
    exact hnoop _ (staleP_run env a _ ops2 hst) v e

/-- C1 witness: the hypotheses of `C1_superseded_load_noop` hold on a
concrete reachable cell with active load 0, and the stale completion of load
0 after a `reload` is a no-op there. -/
theorem C1_witness :
    Reachable envW cellW ∧ cellW.subscription = some (0, 1) ∧
    completeLoad (run envW (reload cellW 2) []) 0 5
      = run envW (reload cellW 2) [] :=
  ⟨⟨cfgLoad, [], rfl⟩, by decide,
    ((C1_superseded_load_noop envW cellW 0 1 ⟨cfgLoad, [], rfl⟩
      (by decide)).2 2 [] 5 7).1⟩

/-- C10: on every reachable cell, hasError=true implies the errorMessage is
present, and every next event that clears hasError to false also sets the
errorMessage to absent in that same step. -/
theorem C10_hasError_message_sync (env : Env E) (c : RxCacheItem V)
    (hR : Reachable env c) :
    (obsHasError c = true → obsError c ≠ none) ∧
    (∀ op : Op V E, obsHasError c = true →
      obsHasError (step env c op) = false → obsError (step env c op) = none) := by
  obtain ⟨hE, hL, hS, hM, hC, hD, hF⟩ := reachable_sInv env c hR
  constructor
  · intro hhe
    rcases hx : c.hasErrorBS with _ | x
    · exfalso
      simp [obsHasError, chVal, hx] at hhe
    · have hxval : x.val = true := by simpa [obsHasError, chVal, hx] using hhe
      obtain ⟨ch2, m, hech, hem⟩ := hE x hx hxval
      simp [obsError, chVal, hech, hem]
  · intro op hhe hfalse
    rcases hx : c.hasErrorBS with _ | x
    · exfalso
      simp [obsHasError, chVal, hx] at hhe
    · have hxval : x.val = true := by simpa [obsHasError, chVal, hx] using hhe
      have htrueC : chVal c.hasErrorBS false = true := by
        rw [hx]
        simp [chVal, hxval]
      cases op with
      | configure cfg =>
        simp only [step] at hfalse ⊢
        by_cases hcl : c.instanceBS.closed = true
        · rw [if_pos hcl] at hfalse
          exact (false_of_tf _ hfalse hhe).elim
        · rw [if_neg hcl] at hfalse ⊢
          have hopen : c.instanceBS.closed = false := by simpa using hcl
          obtain ⟨o1, o2, o3, o4⟩ := hL hopen
          obtain ⟨oi1, oi2⟩ := configureInit_channels c cfg
          obtain ⟨om1, om2⟩ := configureMerge_channels (configureInit c cfg) cfg
          have hc3he : (configureMerge (configureInit c cfg) cfg).hasErrorBS
              = some x := by
            rw [om1, oi1, hx]
          have hc3er : (configureMerge (configureInit c cfg) cfg).errorBS
              = c.errorBS := by
            rw [om2, oi2]
          unfold configure at hfalse ⊢
          by_cases hld : cfg.load = true
          · rw [if_pos hld] at hfalse ⊢
            rcases hco3 : (configureMerge (configureInit c cfg) cfg).construct
              with _ | src3
            · have htrue : obsHasError
                  (refresh (configureMerge (configureInit c cfg) cfg)) = true := by
                simp only [refresh, hco3]
                show chVal (configureMerge (configureInit c cfg) cfg).hasErrorBS
                  false = true
                rw [hc3he]
                simp [chVal, hxval]
              exact (false_of_tf _ hfalse htrue).elim
            · simp only [refresh, hco3]
              show chVal
                (getNext (configureMerge (configureInit c cfg) cfg).errorBS
                  none none) none = none
              rw [hc3er]
              exact chVal_getNext_open _ _ _ _ o4
          · rw [if_neg hld] at hfalse ⊢
            have htrue : obsHasError
                (configureMerge (configureInit c cfg) cfg) = true := by
              show chVal (configureMerge (configureInit c cfg) cfg).hasErrorBS
                false = true
              rw [hc3he]
              simp [chVal, hxval]
            exact (false_of_tf _ hfalse htrue).elim
      | update v =>
        simp only [step] at hfalse ⊢
        by_cases hcl : c.instanceBS.closed = true
        · rw [if_pos hcl] at hfalse
          exact (false_of_tf _ hfalse hhe).elim
        · rw [if_neg hcl] at hfalse ⊢
          have hopen : c.instanceBS.closed = false := by simpa using hcl
          obtain ⟨o1, o2, o3, o4⟩ := hL hopen
          show chVal (nextOpt c.errorBS none) none = none
          exact chVal_nextOpt_self _ _ o4
      | save =>
        simp only [step] at hfalse ⊢
        by_cases hcl : c.instanceBS.closed = true
        · rw [if_pos hcl] at hfalse
          exact (false_of_tf _ hfalse hhe).elim
        · rw [if_neg hcl] at hfalse ⊢
          have hopen : c.instanceBS.closed = false := by simpa using hcl
          obtain ⟨o1, o2, o3, o4⟩ := hL hopen
          rcases hp : c.persist with _ | p
          · simp only [save, hp] at hfalse
            exact (false_of_tf _ hfalse hhe).elim
          · simp only [save, hp]
            show chVal (getNext c.errorBS none none) none = none
            exact chVal_getNext_open _ _ _ _ o4
      | reload src =>
        simp only [step] at hfalse ⊢
        by_cases hcl : c.instanceBS.closed = true
        · rw [if_pos hcl] at hfalse
          exact (false_of_tf _ hfalse hhe).elim
        · rw [if_neg hcl] at hfalse ⊢
          have hopen : c.instanceBS.closed = false := by simpa using hcl
          obtain ⟨o1, o2, o3, o4⟩ := hL hopen
          show chVal (getNext c.errorBS none none) none = none
          exact chVal_getNext_open _ _ _ _ o4
      | reset v =>
        simp only [step] at hfalse ⊢
        by_cases hcl : c.instanceBS.closed = true
        · rw [if_pos hcl] at hfalse
          exact (false_of_tf _ hfalse hhe).elim
        · rw [if_neg hcl] at hfalse ⊢
          have hopen : c.instanceBS.closed = false := by simpa using hcl
          obtain ⟨o1, o2, o3, o4⟩ := hL hopen
          show chVal (nextOpt c.errorBS none) none = none
          exact chVal_nextOpt_self _ _ o4
      | refresh =>
        simp only [step] at hfalse ⊢
        by_cases hcl : c.instanceBS.closed = true
        · rw [if_pos hcl] at hfalse
          exact (false_of_tf _ hfalse hhe).elim
        · rw [if_neg hcl] at hfalse ⊢
          have hopen : c.instanceBS.closed = false := by simpa using hcl
          obtain ⟨o1, o2, o3, o4⟩ := hL hopen
          rcases hco : c.construct with _ | src
          · simp only [refresh, hco] at hfalse
            exact (false_of_tf _ hfalse hhe).elim
          · simp only [refresh, hco]
            show chVal (getNext c.errorBS none none) none = none
            exact chVal_getNext_open _ _ _ _ o4
      | readValue =>
        simp only [step] at hfalse ⊢
        by_cases hcl : c.instanceBS.closed = true
        · rw [if_pos hcl] at hfalse
          exact (false_of_tf _ hfalse hhe).elim
        · rw [if_neg hcl] at hfalse ⊢
          have hopen : c.instanceBS.closed = false := by simpa using hcl
          obtain ⟨o1, o2, o3, o4⟩ := hL hopen
          unfold readValue at hfalse ⊢
          rcases hco : c.construct with _ | src
          · simp only [hco] at hfalse
            exact (false_of_tf _ hfalse hhe).elim
          · simp only [hco] at hfalse ⊢
            by_cases hb : ((readLoaded c).loadedBS.getD ⟨false, false⟩).val = true
            · rw [if_pos hb] at hfalse
              have htrue : obsHasError (readLoaded c) = true := htrueC
              exact (false_of_tf _ hfalse htrue).elim
            · rw [if_neg hb] at hfalse ⊢
              have hco2 : (readLoaded c).construct = some src := hco
              simp only [refresh, hco2]
              show chVal (getNext (readLoaded c).errorBS none none) none = none
              have her : (readLoaded c).errorBS = c.errorBS := rfl
              rw [her]
              exact chVal_getNext_open _ _ _ _ o4
      | finish =>
        have htrue : obsHasError (finish c) = true := by
          show chVal (completeOpt c.hasErrorBS) false = true
          rw [hx]
          simp [completeOpt, chVal, Chan.complete, hxval]
        exact (false_of_tf _ hfalse htrue).elim
      | readLoaded =>
        have htrue : obsHasError (readLoaded c) = true := htrueC
        exact (false_of_tf _ hfalse htrue).elim
      | readLoading =>
        have htrue : obsHasError (readLoading c) = true := htrueC
        exact (false_of_tf _ hfalse htrue).elim
      | readSaving =>
        have htrue : obsHasError (readSaving c) = true := htrueC
        exact (false_of_tf _ hfalse htrue).elim
      | readSaved =>
        have htrue : obsHasError (readSaved c) = true := htrueC
        exact (false_of_tf _ hfalse htrue).elim
      | readHasError =>
        have htrue : obsHasError (readHasError c) = true := by
          show chVal (some (c.hasErrorBS.getD ⟨false, false⟩)) false = true
          rw [hx]
          simp [chVal, hxval]
        exact (false_of_tf _ hfalse htrue).elim
      | readError =>
        have htrue : obsHasError (readError c) = true := htrueC
        exact (false_of_tf _ hfalse htrue).elim
      | completeLoad l item =>
        simp only [step] at hfalse
        rcases hs2 : c.subscription with _ | sub
        · simp only [completeLoad, hs2] at hfalse
          exact (false_of_tf _ hfalse hhe).elim
        · simp only [completeLoad, hs2] at hfalse
          by_cases hl : sub.1 = l
          · rw [if_pos hl] at hfalse
            have hfalse2 : chVal c.hasErrorBS false = false := hfalse
            exact (false_of_tf _ hfalse2 htrueC).elim
          · rw [if_neg hl] at hfalse
            exact (false_of_tf _ hfalse hhe).elim
      | failLoad l e2 =>
        simp only [step] at hfalse
        rcases hs2 : c.subscription with _ | sub
        · simp only [failLoad, hs2] at hfalse
          exact (false_of_tf _ hfalse hhe).elim
        · simp only [failLoad, hs2] at hfalse
          by_cases hl : sub.1 = l
          · rw [if_pos hl] at hfalse
            have htrue : obsHasError (runErrorHandler env e2 c) = true := by
              show chVal (runErrorHandler env e2 c).hasErrorBS false = true
              rw [runErrorHandler_hasErrorBS]
              exact chVal_getNext_true c.hasErrorBS x hx hxval
            exact (false_of_tf _ hfalse htrue).elim
          · rw [if_neg hl] at hfalse
            exact (false_of_tf _ hfalse hhe).elim
      | completeSave sid =>
        simp only [step] at hfalse
        by_cases hmem : sid ∈ c.activeSaves
        · simp only [completeSave, if_pos hmem] at hfalse
          have hfalse2 : chVal c.hasErrorBS false = false := hfalse
          exact (false_of_tf _ hfalse2 htrueC).elim
        · simp only [completeSave, if_neg hmem] at hfalse
          exact (false_of_tf _ hfalse hhe).elim
      | failSave sid e2 =>
        simp only [step] at hfalse
        by_cases hmem : sid ∈ c.activeSaves
        · simp only [failSave, if_pos hmem] at hfalse
          have hfalse2 : obsHasError (runErrorHandler env e2 c) = false := hfalse
          have htrue : obsHasError (runErrorHandler env e2 c) = true := by
            show chVal (runErrorHandler env e2 c).hasErrorBS false = true
            rw [runErrorHandler_hasErrorBS]
            exact chVal_getNext_true c.hasErrorBS x hx hxval
          exact (false_of_tf _ hfalse2 htrue).elim
        · simp only [failSave, if_neg hmem] at hfalse
          exact (false_of_tf _ hfalse hhe).elim

/-- C10 witness: the hypothesis of `C10_hasError_message_sync` holds on a
concrete reachable errored cell, where hasError is true and the errorMessage
is present. -/
theorem C10_witness :
    Reachable envW cellErr ∧ obsHasError cellErr = true ∧
      obsError cellErr ≠ none :=
  ⟨⟨cfgLoad, [Op.failLoad 0 7], rfl⟩, by decide,
    (C10_hasError_message_sync envW cellErr
      ⟨cfgLoad, [Op.failLoad 0 7], rfl⟩).1 (by decide)⟩

end RxCache
